import Mathlib

/-!
Shallow embedding of the authoritative game server of ProjectAllfa/paint
(src/server/game-logic.js and src/server.js).

JavaScript numbers are modelled by exact rationals. The 2D arrays
`blocks[row][col]` (null or a block record) are modelled as the row-major
list of the non-null cells, each cell carrying its grid indices; JS `Map`s
are modelled as association lists with `Map.set` semantics (replace the
value in place if the key is present, else append, preserving iteration
order) and JS `Set`s as duplicate-free lists in insertion order.
-/

set_option maxHeartbeats 1000000
set_option linter.unusedVariables false

/-- Block colors (and team identifiers) used by the server: 'white', 'red', 'blue'. -/
inductive Color where
  | white
  | red
  | blue
deriving DecidableEq, Repr

/-- One non-null cell of `this.blocks[row][col]` from game-logic.js, with its grid indices. -/
structure Block where
  row : Nat
  col : Nat
  x : ℚ
  y : ℚ
  width : ℚ
  height : ℚ
  imageIndex : Nat
deriving DecidableEq, Repr

/-- A spawn point record `{x, y, row, col}`; the fallback spawn points pushed on a
map-load error carry no row/col, hence the `Option`. -/
structure Spawn where
  x : ℚ
  y : ℚ
  row : Option Nat
  col : Option Nat
deriving DecidableEq, Repr

/-- The immutable map data of a `GameServer` after `loadMap`. -/
structure GameMap where
  mapRows : Nat
  mapCols : Nat
  blockWidth : ℚ
  blockHeight : ℚ
  startX : ℚ
  startY : ℚ
  charW : ℚ
  charH : ℚ
  blocks : List Block
  spawnRed : List Spawn
  spawnBlue : List Spawn
  bombSpawns : List (Nat × Nat)
deriving DecidableEq, Repr

/-- Game constant GRAVITY = 1500. -/
def GRAVITY : ℚ := 1500

/-- Game constant JUMP_POWER = -600. -/
def JUMP_POWER : ℚ := -600

/-- Game constant JUMP_PAD_BOUNCE = -900. -/
def JUMP_PAD_BOUNCE : ℚ := -900

/-- Game constant SPEED = 180. -/
def SPEED : ℚ := 180

/-- Game constant MAX_FALL_SPEED = 1200. -/
def MAX_FALL_SPEED : ℚ := 1200

/-- Game constant MAX_JUMPS = 2. -/
def MAX_JUMPS : Nat := 2

/-- Game constant JUMP_PAD_INDEX = 9. -/
def JUMP_PAD_INDEX : Nat := 9

/-- Game constant GAME_HEIGHT = 1080. -/
def GAME_HEIGHT : ℚ := 1080

/-- fixedTimestep = 1/60. -/
def fixedTimestep : ℚ := 1/60

/-- Effective collision width of a block: jump pads are 3 blocks wide
(`block.imageIndex === this.JUMP_PAD_INDEX ? block.width * 3 : block.width`). -/
def effWidth (b : Block) : ℚ :=
  if b.imageIndex = JUMP_PAD_INDEX then b.width * 3 else b.width

/-- Whether a block counts as ground under the character in `getGroundY`:
horizontally overlapping and with its top within [-3, 50] pixels below `y`. -/
def groundCand (m : GameMap) (x y : ℚ) (b : Block) : Prop :=
  x - m.charW / 2 < b.x + effWidth b ∧ x + m.charW / 2 > b.x ∧
    (-3 : ℚ) ≤ b.y - y ∧ b.y - y ≤ 50

instance (m : GameMap) (x y : ℚ) (b : Block) : Decidable (groundCand m x y b) := by
  unfold groundCand; infer_instance

/-- GameServer.getGroundY: the smallest top among candidate ground blocks, or none. -/
def getGroundY (m : GameMap) (x y : ℚ) : Option ℚ :=
  m.blocks.foldl (fun acc b =>
    if groundCand m x y b then
      match acc with
      | none => some b.y
      | some g => if b.y < g then some b.y else some g
    else acc) none

/-- The result record of GameServer.checkCollision. -/
structure CollisionResult where
  collided : Bool
  blockBottom : Option ℚ
deriving DecidableEq, Repr

/-- The per-block body of the loop in GameServer.checkCollision: `none` means the
loop continues to the next block, `some r` means the function returns `r`.
The jump-pad pass-through conditions are the sequential `continue` tests of the
source, merged into one disjunction. In the upward-moving case the source computes
`wasBelow` from `prevY` but returns the same result on both of its branches. -/
def collideOne (m : GameMap) (x y vY : ℚ) (b : Block) : Option CollisionResult :=
  let charLeft := x - m.charW / 2
  let charRight := x + m.charW / 2
  let charTop := y - m.charH
  let charBottom := y
  let bw := effWidth b
  let bL := b.x
  let bR := b.x + bw
  let bT := b.y
  let bB := b.y + b.height
  if charLeft < bR ∧ charRight > bL ∧ charTop < bB - 1/2 ∧ charBottom > bT + 1/2 then
    if b.imageIndex = JUMP_PAD_INDEX ∧
        (vY < 0 ∨ charBottom - bT ≤ 5 ∨
          (charBottom - bT > 5 ∧ charBottom - bT ≤ b.height + 10) ∨
          (charTop ≥ bT ∧ charTop < bB)) then
      none
    else if vY < 0 then
      if charLeft < bR ∧ charRight > bL then
        if charTop ≤ bB then some ⟨true, some bB⟩ else none
      else none
    else some ⟨true, none⟩
  else none

/-- GameServer.checkCollision: return the first per-block result, else no collision.
`prevY` is accepted because the source takes it, but the loop body's result does not
depend on it (see `collideOne`). -/
def checkCollision (m : GameMap) (x y vY : ℚ) (prevY : Option ℚ) : CollisionResult :=
  (m.blocks.findSome? (collideOne m x y vY)).getD ⟨false, none⟩

/-- GameServer.checkJumpPadCollision: AABB overlap with any jump-pad block (3 wide). -/
def checkJumpPadCollision (m : GameMap) (x y : ℚ) : Bool :=
  m.blocks.any (fun b =>
    b.imageIndex == JUMP_PAD_INDEX &&
    decide (x - m.charW / 2 < b.x + b.width * 3) && decide (x + m.charW / 2 > b.x) &&
    decide (y - m.charH < b.y + b.height) && decide (y > b.y))

/-- GameServer.getJumpPadAt: the first jump-pad block the character is horizontally
over whose top is within 2 pixels of `groundY`. -/
def getJumpPadAt (m : GameMap) (x groundY : ℚ) : Option Block :=
  m.blocks.find? (fun b =>
    b.imageIndex == JUMP_PAD_INDEX &&
    decide (x - m.charW / 2 < b.x + b.width * 3) && decide (x + m.charW / 2 > b.x) &&
    decide (|groundY - b.y| < 2))

/-- GameServer.isTouchingBlock: within touch distance of any side of any block. -/
def isTouchingBlock (m : GameMap) (x y : ℚ) : Bool :=
  let touchDistance := max 3 (5 / 20 * m.blockWidth)
  let ceilingTouchDistance := max 5 (8 / 20 * m.blockWidth)
  let charLeft := x - m.charW / 2
  let charRight := x + m.charW / 2
  let charTop := y - m.charH
  let charBottom := y
  m.blocks.any (fun b =>
    let bw := effWidth b
    let bL := b.x
    let bR := b.x + bw
    let bT := b.y
    let bB := b.y + b.height
    decide ((charRight ≥ bL - touchDistance ∧ charRight ≤ bL + touchDistance ∧
        charTop < bB ∧ charBottom > bT) ∨
      (charLeft ≤ bR + touchDistance ∧ charLeft ≥ bR - touchDistance ∧
        charTop < bB ∧ charBottom > bT) ∨
      (charBottom ≥ bT - ceilingTouchDistance ∧ charBottom ≤ bT + ceilingTouchDistance ∧
        charLeft < bR ∧ charRight > bL) ∨
      (charTop ≤ bB + touchDistance ∧ charTop ≥ bB - touchDistance ∧
        charLeft < bR ∧ charRight > bL)))

/-- The per-player record stored in `this.players` (game-logic.js `addPlayer`). -/
structure Player where
  playerId : String
  team : Color
  x : ℚ
  y : ℚ
  velocityY : ℚ
  hasBomb : Bool
  onGround : Bool
  jumpsUsed : Nat
  wasInJumpPad : Bool
deriving DecidableEq, Repr

/-- The per-player record stored in `this.playerInputs`. -/
structure InputState where
  a : Bool
  d : Bool
  w : Bool
  s : Bool
  wasPressingW : Bool
  wasPressingS : Bool
deriving DecidableEq, Repr

/-- The input state a player is initialised with (all keys up). -/
def defaultInputState : InputState := ⟨false, false, false, false, false, false⟩

/-- The `this.spawnIndices` record used for round-robin spawn selection. -/
structure SpawnIndices where
  red : Nat
  blue : Nat
deriving DecidableEq, Repr

/-- `this.spawnPoints[team] || []` (a 'white' team indexes no spawn list). -/
def teamSpawnList (m : GameMap) : Color → List Spawn
  | Color.red => m.spawnRed
  | Color.blue => m.spawnBlue
  | Color.white => []

/-- `this.spawnIndices[team]` before the post-increment. -/
def teamSpawnIndex (si : SpawnIndices) : Color → Nat
  | Color.red => si.red
  | Color.blue => si.blue
  | Color.white => 0

/-- The post-increment `this.spawnIndices[team]++`. -/
def bumpSpawnIndex (si : SpawnIndices) : Color → SpawnIndices
  | Color.red => { si with red := si.red + 1 }
  | Color.blue => { si with blue := si.blue + 1 }
  | Color.white => si

/-- GameServer.getSpawnPoint: fallback (960, 500) when the team has no spawn
points, else round-robin by the team's spawn index, which is then incremented. -/
def getSpawnPoint (m : GameMap) (team : Color) (si : SpawnIndices) : Spawn × SpawnIndices :=
  let spawns := teamSpawnList m team
  if spawns.length = 0 then (⟨960, 500, none, none⟩, si)
  else (spawns.getD (teamSpawnIndex si team % spawns.length) ⟨960, 500, none, none⟩,
    bumpSpawnIndex si team)

/-- GameServer.processJumpInput, acting on one player and their input state. -/
def processJumpInput (m : GameMap) (p : Player) (inp : InputState) : Player × InputState :=
  let justPressedW := inp.w && !inp.wasPressingW
  let inp := { inp with wasPressingW := inp.w }
  if justPressedW then
    let currentGroundY := getGroundY m p.x p.y
    let isOnJumpPad := match currentGroundY with
      | some g => (getJumpPadAt m p.x g).isSome
      | none => false
    let isInsideJumpPad := checkJumpPadCollision m p.x p.y
    if isOnJumpPad || isInsideJumpPad then (p, inp)
    else if p.onGround then
      ({ p with velocityY := JUMP_POWER, jumpsUsed := 1, onGround := false }, inp)
    else if isTouchingBlock m p.x p.y then
      ({ p with velocityY := JUMP_POWER, jumpsUsed := 0 }, inp)
    else if p.jumpsUsed < MAX_JUMPS ∧ p.velocityY > 0 then
      ({ p with velocityY := JUMP_POWER, jumpsUsed := p.jumpsUsed + 1 }, inp)
    else (p, inp)
  else (p, inp)

/-- GameServer.applyMovement, acting on one player given their input state. -/
def applyMovement (m : GameMap) (p : Player) (inp : InputState) (dt : ℚ) : Player :=
  let dx := (if inp.a then -(SPEED * dt) else 0) + (if inp.d then SPEED * dt else 0)
  if dx = 0 then p
  else
    let newX := p.x + dx
    let currentCharLeft := p.x - m.charW / 2
    let currentCharRight := p.x + m.charW / 2
    let charTop := p.y - m.charH
    let charBottom := p.y
    let alreadyTouching := m.blocks.any (fun b =>
      let bw := effWidth b
      decide (charTop < b.y + b.height) && decide (charBottom > b.y) &&
      ((decide (dx > 0) && decide (currentCharRight ≥ b.x - 2) &&
          decide (currentCharRight ≤ b.x + 2)) ||
       (decide (dx < 0) && decide (currentCharLeft ≤ b.x + bw + 2) &&
          decide (currentCharLeft ≥ b.x + bw - 2))))
    let mapLeft := m.startX + m.charW / 2
    let mapRight := m.startX + (m.mapCols : ℚ) * m.blockWidth - m.charW / 2
    let p1 :=
      if alreadyTouching then p
      else
        let collision := checkCollision m newX p.y p.velocityY none
        if collision.collided then
          let charLeft := newX - m.charW / 2
          let charRight := newX + m.charW / 2
          let hit := m.blocks.find? (fun b =>
            let bw := effWidth b
            decide (charLeft < b.x + bw) && decide (charRight > b.x) &&
            decide (p.y - m.charH < b.y + b.height) && decide (p.y > b.y))
          match hit with
          | some b =>
            let newPosition := if dx > 0 then b.x - m.charW / 2 else b.x + effWidth b + m.charW / 2
            if |p.x - newPosition| > 1/1000 then
              { p with x := max mapLeft (min mapRight newPosition) }
            else p
          | none => p
        else { p with x := max mapLeft (min mapRight newX) }
    { p1 with x := max mapLeft (min mapRight p1.x) }

/-- STEP 1 of the per-player block of GameServer.updateGame: ground check before input. -/
def step1Ground (m : GameMap) (p : Player) : Player :=
  match getGroundY m p.x p.y with
  | some groundY =>
    if |p.y - groundY| < 2 ∧ |p.velocityY| < 36 then
      { p with y := groundY, velocityY := 0, onGround := true, jumpsUsed := 0 }
    else { p with onGround := false }
  | none => { p with onGround := false }

/-- STEP 3: gravity with terminal-velocity clamp. -/
def step3Gravity (p : Player) (dt : ℚ) : Player :=
  let v := p.velocityY + GRAVITY * dt
  { p with velocityY := if v > MAX_FALL_SPEED then MAX_FALL_SPEED else v }

/-- STEP 4 of the per-player block: vertical movement with jump-pad semantics. -/
def step4Vertical (m : GameMap) (p : Player) (dt : ℚ) : Player :=
  let newY := p.y + p.velocityY * dt
  let prevY := p.y
  let willBeInJumpPad := checkJumpPadCollision m p.x newY
  let enteringJumpPad := !p.wasInJumpPad && willBeInJumpPad
  let newGroundY := getGroundY m p.x p.y
  let jumpPad : Option Block := match newGroundY with
    | some g => getJumpPadAt m p.x g
    | none => none
  let fallingNoLand : Player :=
    if enteringJumpPad then
      { p with
          velocityY := JUMP_PAD_BOUNCE
          jumpsUsed := 0
          y := newY
          onGround := false
          wasInJumpPad := true }
    else
      let collision := checkCollision m p.x newY p.velocityY (some prevY)
      if collision.collided then { p with velocityY := 0, onGround := false }
      else { p with y := newY, onGround := false }
  if p.velocityY > 0 then
    match newGroundY with
    | some g =>
      if newY ≥ g then
        match jumpPad with
        | some _ =>
          { p with
              y := g
              velocityY := JUMP_PAD_BOUNCE
              onGround := false
              jumpsUsed := 0
              wasInJumpPad := true }
        | none =>
          let collision := checkCollision m p.x newY p.velocityY (some prevY)
          if collision.collided then
            { p with y := g, velocityY := 0, onGround := true, jumpsUsed := 0 }
          else { p with y := newY, onGround := false }
      else fallingNoLand
    | none => fallingNoLand
  else
    if enteringJumpPad then
      let p1 :=
        if p.velocityY < 0 then { p with velocityY := JUMP_PAD_BOUNCE }
        else if p.velocityY = 0 then { p with velocityY := JUMP_PAD_BOUNCE }
        else p
      { p1 with jumpsUsed := 0, y := newY, onGround := false, wasInJumpPad := true }
    else
      let currentlyOnJumpPad := checkJumpPadCollision m p.x p.y
      if currentlyOnJumpPad ∧ p.velocityY < 0 then
        { p with y := newY, onGround := false, wasInJumpPad := true }
      else
        let collision := checkCollision m p.x newY p.velocityY (some prevY)
        if collision.collided then
          let hitJumpPad := checkJumpPadCollision m p.x newY
          if hitJumpPad ∧ p.velocityY < 0 then
            { p with y := newY, onGround := false, wasInJumpPad := true }
          else
            let p1 :=
              if p.velocityY < 0 then
                match collision.blockBottom with
                | some bb => { p with y := bb + m.charH }
                | none => p
              else p
            { p1 with velocityY := 0, onGround := false, jumpsUsed := 0, wasInJumpPad := false }
        else { p with y := newY, onGround := false, wasInJumpPad := willBeInJumpPad }

/-- STEP 6: the final ground check, skipped right after a jump-pad bounce. -/
def step6Final (m : GameMap) (p : Player) : Player :=
  let justBouncedOnJumpPad := p.velocityY < -400 ∧ p.wasInJumpPad
  if justBouncedOnJumpPad then p
  else
    match getGroundY m p.x p.y with
    | some finalGroundY =>
      if |p.y - finalGroundY| < 3 ∧ |p.velocityY| < 36 then
        match getJumpPadAt m p.x finalGroundY with
        | some _ => { p with y := finalGroundY, onGround := false }
        | none =>
          { p with y := finalGroundY, velocityY := 0, onGround := true, jumpsUsed := 0 }
      else if p.velocityY > 1/10 then { p with onGround := false }
      else p
    | none => if p.velocityY > 1/10 then { p with onGround := false } else p

/-- Update of `wasInJumpPad` for the next frame, at the end of the per-player block. -/
def stepPadFlag (m : GameMap) (p : Player) : Player :=
  { p with wasInJumpPad := checkJumpPadCollision m p.x p.y }

/-- The safety check: a player embedded in a block (and not inside a jump pad) is
moved to the nearest ground, or respawned when no ground is found. -/
def stepSafety (m : GameMap) (si : SpawnIndices) (p : Player) : Player × SpawnIndices :=
  if checkJumpPadCollision m p.x p.y then (p, si)
  else if (checkCollision m p.x p.y 0 none).collided then
    match getGroundY m p.x p.y with
    | some g => ({ p with y := g, velocityY := 0, onGround := true }, si)
    | none =>
      let (sp, si) := getSpawnPoint m p.team si
      ({ p with x := sp.x, y := sp.y, velocityY := 0, onGround := true }, si)
  else (p, si)

/-- Horizontal boundary clamp at the end of the per-player block. -/
def stepBoundary (m : GameMap) (p : Player) : Player :=
  let mapLeft := m.startX + m.charW / 2
  let mapRight := m.startX + (m.mapCols : ℚ) * m.blockWidth - m.charW / 2
  { p with x := max mapLeft (min mapRight p.x) }

/-- Handling of a player fallen below the map: emergency ground search or respawn. -/
def stepFall (m : GameMap) (si : SpawnIndices) (p : Player) : Player × SpawnIndices :=
  if p.y > GAME_HEIGHT then
    match getGroundY m p.x GAME_HEIGHT with
    | some g => ({ p with y := g, velocityY := 0, onGround := true }, si)
    | none =>
      let (sp, si) := getSpawnPoint m p.team si
      ({ p with x := sp.x, y := sp.y, velocityY := 0, onGround := true }, si)
  else (p, si)

/-- The whole per-player block of GameServer.updateGame (lines 279-513), including
applyMovement and processJumpInput. `inp` is `this.playerInputs.get(playerId)`
(`none` when absent, in which case movement and jump processing are skipped);
the spawn indices are threaded because respawning consumes them. -/
def stepPlayer (m : GameMap) (si : SpawnIndices) (p : Player) (inp : Option InputState)
    (dt : ℚ) : Player × Option InputState × SpawnIndices :=
  let p := step1Ground m p
  let p := match inp with
    | some i => applyMovement m p i dt
    | none => p
  let (p, inp) := match inp with
    | some i =>
      let r := processJumpInput m p i
      (r.1, some r.2)
    | none => (p, none)
  let p := step3Gravity p dt
  let p := step4Vertical m p dt
  let p := step6Final m p
  let p := stepPadFlag m p
  let (p, si) := stepSafety m si p
  let p := stepBoundary m p
  let (p, si) := stepFall m si p
  (p, inp, si)

/-- Lookup in an association list modelling a JS `Map.get`. -/
def assocGet {κ α : Type} [BEq κ] (l : List (κ × α)) (k : κ) : Option α :=
  (l.find? (fun e => e.1 == k)).map (fun e => e.2)

/-- Update in an association list modelling a JS `Map.set`: replace the value in
place when the key is present, else append. -/
def assocSet {κ α : Type} [BEq κ] (l : List (κ × α)) (k : κ) (v : α) : List (κ × α) :=
  if l.any (fun e => e.1 == k) then l.map (fun e => if e.1 == k then (k, v) else e)
  else l ++ [(k, v)]

/-- Insertion into a JS `Set` (`this.changedBlocks.add`): append if not present. -/
def addChanged (l : List (Nat × Nat)) (c : Nat × Nat) : List (Nat × Nat) :=
  if c ∈ l then l else l ++ [c]

/-- A pickup bomb (`initializeBombs`). -/
structure Bomb where
  id : Nat
  x : ℚ
  y : ℚ
  width : ℚ
  height : ℚ
  spawnX : ℚ
  spawnY : ℚ
  spawnRow : Nat
  spawnCol : Nat
  collected : Bool
  respawnTimer : ℚ
  respawnDelay : ℚ
deriving DecidableEq, Repr

/-- An active thrown bomb (`throwBomb`). -/
structure ThrownBomb where
  playerId : String
  x : ℚ
  y : ℚ
  team : Color
  velocityX : ℚ
  velocityY : ℚ
  timer : ℚ
  exploded : Bool
deriving DecidableEq, Repr

/-- The mutable state of a `GameServer` instance. `blockColors` is total over grid
indices (the source initialises every cell to 'white'). -/
structure GameState where
  map : GameMap
  players : List Player
  inputs : List (String × InputState)
  lastProcessedSequence : List (String × Nat)
  bombs : List Bomb
  thrownBombs : List ThrownBomb
  blockColors : Nat → Nat → Color
  changedBlocks : List (Nat × Nat)
  gameTime : ℚ
  accumulator : ℚ
  spawnIndices : SpawnIndices

/-- `this.blocks[row][col] !== null`. -/
def blockExistsAt (m : GameMap) (row col : Nat) : Bool :=
  m.blocks.any (fun b => b.row == row && b.col == col)

/-- The spawn-location test inside GameServer.setBlockColor: the cell is a spawn
cell of either team, or directly beneath one (`row === spawn.row + 1`). -/
def isAtSpawnCell (m : GameMap) (row col : Nat) : Bool :=
  (m.spawnRed ++ m.spawnBlue).any (fun sp =>
    match sp.row, sp.col with
    | some r, some c => (row == r && col == c) || (row == r + 1 && col == c)
    | _, _ => false)

/-- GameServer.setBlockColor acting on the color grid and the dirty set: ignores
out-of-range or empty cells; marks the cell dirty when the color changes, or,
even unchanged, when the cell is at/beneath a spawn point. -/
def setBlockColor (m : GameMap) (colors : Nat → Nat → Color) (changed : List (Nat × Nat))
    (row col : Nat) (color : Color) : (Nat → Nat → Color) × List (Nat × Nat) :=
  if row ≥ m.mapRows ∨ col ≥ m.mapCols then (colors, changed)
  else if !blockExistsAt m row col then (colors, changed)
  else
    let isAtSpawn := isAtSpawnCell m row col
    let oldColor := colors row col
    if oldColor ≠ color then
      (fun r c => if r = row ∧ c = col then color else colors r c, addChanged changed (row, col))
    else if isAtSpawn then (colors, addChanged changed (row, col))
    else (colors, changed)

/-- GameServer.resetAllBlocks: every existing cell is set to white and marked dirty. -/
def resetAllBlocks (g : GameState) : GameState :=
  let m := g.map
  let r := (List.range m.mapRows).foldl
    (fun (acc : (Nat → Nat → Color) × List (Nat × Nat)) row =>
      (List.range m.mapCols).foldl
        (fun (acc2 : (Nat → Nat → Color) × List (Nat × Nat)) col =>
          if blockExistsAt m row col then
            ((fun r c => if r = row ∧ c = col then Color.white else acc2.1 r c),
              addChanged acc2.2 (row, col))
          else acc2) acc) (g.blockColors, g.changedBlocks)
  { g with blockColors := r.1, changedBlocks := r.2 }

/-- The proximity test of GameServer.collectBlockTouches for one block (an else-if
chain over the four sides, merged into a disjunction). -/
def touchingBlock (m : GameMap) (p : Player) (b : Block) : Bool :=
  let touchDistance := max 3 (5 / 20 * m.blockWidth)
  let charLeft := p.x - m.charW / 2
  let charRight := p.x + m.charW / 2
  let charTop := p.y - m.charH
  let charBottom := p.y
  let bw := effWidth b
  let bL := b.x
  let bR := b.x + bw
  let bT := b.y
  let bB := b.y + b.height
  decide ((charRight ≥ bL - touchDistance ∧ charRight ≤ bL + touchDistance ∧
      charTop < bB ∧ charBottom > bT) ∨
    (charLeft ≤ bR + touchDistance ∧ charLeft ≥ bR - touchDistance ∧
      charTop < bB ∧ charBottom > bT) ∨
    (charBottom ≥ bT - touchDistance ∧ charBottom ≤ bT + touchDistance ∧
      charLeft < bR ∧ charRight > bL) ∨
    (charTop ≤ bB + touchDistance ∧ charTop ≥ bB - touchDistance ∧
      charLeft < bR ∧ charRight > bL))

/-- GameServer.collectBlockTouches: record every touched cell into the touch map
(`Map.set` semantics, so the last recorded team for a cell wins). The source also
stores the toucher's playerId with the team, but only the team is ever read. -/
def collectBlockTouches (m : GameMap) (p : Player) (acc : List ((Nat × Nat) × Color)) :
    List ((Nat × Nat) × Color) :=
  m.blocks.foldl (fun acc b =>
    if touchingBlock m p b then assocSet acc (b.row, b.col) p.team else acc) acc

/-- GameServer.checkBombCollision: AABB between a player and a pickup bomb. -/
def checkBombCollision (m : GameMap) (p : Player) (b : Bomb) : Bool :=
  decide (p.x - m.charW / 2 < b.x + b.width / 2 ∧ p.x + m.charW / 2 > b.x - b.width / 2 ∧
    p.y - m.charH < b.y ∧ p.y > b.y - b.height)

/-- The respawn-timer half of the bomb update in updateGame. -/
def bombRespawnStep (b : Bomb) (dt : ℚ) : Bomb :=
  if b.collected then
    let t := b.respawnTimer + dt
    if t ≥ b.respawnDelay then { b with collected := false, respawnTimer := 0 }
    else { b with respawnTimer := t }
  else b

/-- The collection half of the bomb update: every bombless player overlapping the
bomb collects it (the source re-marks the bomb collected for each such player). -/
def bombCollectStep (m : GameMap) (b : Bomb) (players : List Player) : Bomb × List Player :=
  players.foldl (fun acc p =>
    if !p.hasBomb && checkBombCollision m p acc.1 then
      ({ acc.1 with collected := true, respawnTimer := 0 }, acc.2 ++ [{ p with hasBomb := true }])
    else (acc.1, acc.2 ++ [p])) (b, [])

/-- The thrown-bomb update in updateGame: ballistic step, then removal of bombs
that exploded, timed out (> 2s) or fell below y = 1200. -/
def updateThrownBombs (tbs : List ThrownBomb) (dt : ℚ) : List ThrownBomb :=
  tbs.filterMap (fun b =>
    let vY := b.velocityY + GRAVITY * dt
    let b := { b with
      velocityY := vY
      y := b.y + vY * dt
      x := b.x + b.velocityX * dt
      timer := b.timer + dt }
    if b.exploded || decide (b.timer > 2) || decide (b.y > 1200) then none else some b)

/-- GameServer.updateGame: cap dt, step every player in order (threading the input
map and the spawn indices), update thrown bombs, resolve block painting from the
collected touches, then update pickup bombs against the players. -/
def updateGame (g : GameState) (dt0 : ℚ) : GameState :=
  let dt := min dt0 (1/30)
  let stepped := g.players.foldl (fun (acc : List Player × List (String × InputState) × SpawnIndices) p =>
    let r := stepPlayer g.map acc.2.2 p (assocGet acc.2.1 p.playerId) dt
    let inputs := match r.2.1 with
      | some i => assocSet acc.2.1 p.playerId i
      | none => acc.2.1
    (acc.1 ++ [r.1], inputs, r.2.2)) ([], g.inputs, g.spawnIndices)
  let players := stepped.1
  let tbs := updateThrownBombs g.thrownBombs dt
  let touches := players.foldl (fun acc p => collectBlockTouches g.map p acc) []
  let painted := touches.foldl (fun (acc : (Nat → Nat → Color) × List (Nat × Nat)) t =>
    setBlockColor g.map acc.1 acc.2 t.1.1 t.1.2 t.2) (g.blockColors, g.changedBlocks)
  let bombed := g.bombs.foldl (fun (acc : List Bomb × List Player) bomb =>
    let bomb := bombRespawnStep bomb dt
    if !bomb.collected then
      let r := bombCollectStep g.map bomb acc.2
      (acc.1 ++ [r.1], r.2)
    else (acc.1 ++ [bomb], acc.2)) ([], players)
  { g with
      players := bombed.2
      inputs := stepped.2.1
      spawnIndices := stepped.2.2
      thrownBombs := tbs
      blockColors := painted.1
      changedBlocks := painted.2
      bombs := bombed.1 }

/-- One pass of the body of the while loop in GameServer.update: increment
gameTime, run updateGame at the fixed timestep, deduct the accumulator. -/
def tickOnce (g : GameState) : GameState :=
  let g1 := { g with gameTime := g.gameTime + fixedTimestep }
  let g2 := updateGame g1 fixedTimestep
  { g2 with accumulator := g2.accumulator - fixedTimestep }

/-- The while loop of GameServer.update, bounded by the remaining update budget
(`updates < maxUpdates` with maxUpdates = 5). -/
def updateSteps : Nat → GameState → GameState
  | 0, g => g
  | fuel + 1, g =>
    if g.accumulator ≥ fixedTimestep then updateSteps fuel (tickOnce g) else g

/-- GameServer.update: clamp deltaTime to 0.1s, accumulate, drain the accumulator
in fixed steps (at most 5), then clamp the leftover accumulator. -/
def update (g : GameState) (deltaTime : ℚ) : GameState :=
  let dt := min deltaTime (1/10)
  let g := { g with accumulator := g.accumulator + dt }
  let g := updateSteps 5 g
  if g.accumulator ≥ fixedTimestep then { g with accumulator := fixedTimestep } else g

/-- One element of the `inputs` array of an inbound input message. The `key`
field is `none` when the payload lacks a key (a malformed event, on which the
source's `input.key.toLowerCase()` raises a TypeError). -/
structure InputEvent where
  key : Option String
  pressed : Bool
deriving DecidableEq, Repr

/-- The `input.key.toLowerCase()` call, modelled as mapping the character-level
lower-casing over the string. -/
def jsToLower (s : String) : String := String.mk (s.data.map Char.toLower)

/-- The switch over a recognised lower-cased key in GameServer.applyInputs. -/
def updateKeyState (st : InputState) (key : String) (pressed : Bool) : InputState :=
  if key == "a" then { st with a := pressed }
  else if key == "d" then { st with d := pressed }
  else if key == "w" then { st with wasPressingW := st.w, w := pressed }
  else if key == "s" then { st with s := pressed, wasPressingS := if pressed then st.wasPressingS else false }
  else st

/-- The `inputs.forEach` loop of GameServer.applyInputs: events whose lower-cased
key is not one of a/d/w/s are skipped; an event without a key raises (error). -/
def applyEvents (st : InputState) : List InputEvent → Except Unit InputState
  | [] => .ok st
  | e :: rest =>
    match e.key with
    | none => .error ()
    | some k =>
      let key := jsToLower k
      if ["a", "d", "w", "s"].contains key then applyEvents (updateKeyState st key e.pressed) rest
      else applyEvents st rest

/-- GameServer.applyInputs: no-op for an unknown player; otherwise ensure an input
state exists, record the (last) sequence number when present, then apply the
events in order. An error models the uncaught TypeError on a malformed event. -/
def applyInputs (g : GameState) (pid : String) (events : List InputEvent)
    (gameTimeClient : Option ℚ) (sequence : Option Nat) : Except Unit GameState :=
  if !(g.players.any (fun p => p.playerId == pid)) then .ok g
  else
    let inputs0 := if g.inputs.any (fun e => e.1 == pid) then g.inputs
      else g.inputs ++ [(pid, defaultInputState)]
    let lastSeq := match sequence with
      | some s => assocSet g.lastProcessedSequence pid s
      | none => g.lastProcessedSequence
    match applyEvents ((assocGet inputs0 pid).getD defaultInputState) events with
    | .ok st =>
      .ok { g with inputs := assocSet inputs0 pid st, lastProcessedSequence := lastSeq }
    | .error e => .error e

/-- The per-player entry of a snapshot. -/
structure SnapPlayer where
  playerId : String
  team : Color
  x : ℚ
  y : ℚ
  velocityX : ℚ
  velocityY : ℚ
  hasBomb : Bool
  onGround : Bool
  jumpsUsed : Nat
deriving DecidableEq, Repr

/-- The per-bomb entry of a snapshot. -/
structure SnapBomb where
  id : Nat
  x : ℚ
  y : ℚ
  collected : Bool
  respawnTimer : ℚ
deriving DecidableEq, Repr

/-- One element of the `blockChanges` delta of a snapshot. -/
structure BlockChange where
  row : Nat
  col : Nat
  color : Color
deriving DecidableEq, Repr

/-- The snapshot message built by GameServer.getSnapshot. -/
structure Snapshot where
  tick : ℤ
  serverTime : ℚ
  gameTime : ℚ
  players : List SnapPlayer
  thrownBombs : List ThrownBomb
  bombs : List SnapBomb
  blockChanges : List BlockChange
  lastProcessedSequences : List (String × Nat)

/-- GameServer.getSnapshot: build the snapshot (the `blockChanges` delta lists the
dirty in-range cells with their current colors; `serverTime` is the Date.now()
value, taken as a parameter), then clear the dirty set. Returns the snapshot and
the state after the call. -/
def getSnapshot (g : GameState) (serverTime : ℚ) : Snapshot × GameState :=
  let tick : ℤ := ⌊g.gameTime / fixedTimestep⌋
  let blockChanges := g.changedBlocks.foldl (fun acc rc =>
    if rc.1 < g.map.mapRows ∧ rc.2 < g.map.mapCols then
      acc ++ [BlockChange.mk rc.1 rc.2 (g.blockColors rc.1 rc.2)]
    else acc) []
  let snap : Snapshot :=
    { tick := tick
      serverTime := serverTime
      gameTime := g.gameTime
      players := g.players.map (fun p =>
        let vx : ℚ := match assocGet g.inputs p.playerId with
          | some st => if st.d then SPEED else if st.a then -SPEED else 0
          | none => 0
        ⟨p.playerId, p.team, p.x, p.y, vx, p.velocityY, p.hasBomb, p.onGround, p.jumpsUsed⟩)
      thrownBombs := g.thrownBombs
      bombs := g.bombs.map (fun b => ⟨b.id, b.x, b.y, b.collected, b.respawnTimer⟩)
      blockChanges := blockChanges
      lastProcessedSequences := g.lastProcessedSequence }
  (snap, { g with changedBlocks := [] })

/-- GameServer.addPlayer: spawn the player at the team's next round-robin spawn
point and initialise their input state. -/
def addPlayer (g : GameState) (pid : String) (team : Color) : GameState :=
  let r := getSpawnPoint g.map team g.spawnIndices
  let player : Player :=
    { playerId := pid
      team := team
      x := r.1.x
      y := r.1.y
      velocityY := 0
      hasBomb := false
      onGround := false
      jumpsUsed := 0
      wasInJumpPad := false }
  let players := if g.players.any (fun q => q.playerId == pid) then
      g.players.map (fun q => if q.playerId == pid then player else q)
    else g.players ++ [player]
  { g with
      players := players
      inputs := assocSet g.inputs pid defaultInputState
      spawnIndices := r.2 }

/-- GameServer.initializeBombs: one bomb per in-range bomb spawn, positioned at the
top centre of the marker block (grid fallback when the cell is empty); the bomb
size is the 20x20 server approximation and the respawn delay 10 seconds. -/
def initBombs (m : GameMap) : List Bomb :=
  m.bombSpawns.foldl (fun acc rc =>
    if rc.1 < m.mapRows ∧ rc.2 < m.mapCols then
      let pos : ℚ × ℚ := match m.blocks.find? (fun b => b.row == rc.1 && b.col == rc.2) with
        | some b => (b.x + b.width / 2, b.y)
        | none => (m.startX + (rc.2 : ℚ) * m.blockWidth + m.blockWidth / 2,
                   m.startY + (rc.1 : ℚ) * m.blockHeight)
      acc ++ [{ id := acc.length
                x := pos.1
                y := pos.2
                width := 20
                height := 20
                spawnX := pos.1
                spawnY := pos.2
                spawnRow := rc.1
                spawnCol := rc.2
                collected := false
                respawnTimer := 0
                respawnDelay := 10 }]
    else acc) []

/-- The match state machine phases of GameServerManager (`this.gameState`). -/
inductive Phase where
  | QUEUE
  | PLAYING
  | ENDED
deriving DecidableEq, Repr

/-- The GameServerManager state relevant to the queue/game timers: the phase, the
two countdowns, the round counter, the queued player list (`this.players` of the
manager, in insertion order) and the embedded GameServer state. -/
structure ManagerState where
  gameState : Phase
  queueCountdown : ℚ
  gameCountdown : ℚ
  roundNumber : Nat
  queuedPlayers : List String
  game : GameState

/-- GameServerManager.startGame: enter PLAYING with a 120s countdown, reset all
block colors to white, reset gameTime, reinitialise the pickup bombs, and add
every queued player with alternating team assignment (even index red, odd blue).
Database writes, socket notifications and timestamps are external effects. -/
def startGame (ms : ManagerState) : ManagerState :=
  let g := resetAllBlocks ms.game
  let g := { g with gameTime := 0 }
  let g := { g with bombs := initBombs g.map }
  let g := (ms.queuedPlayers.foldl (fun (acc : GameState × Nat) pid =>
      (addPlayer acc.1 pid (if acc.2 % 2 = 0 then Color.red else Color.blue), acc.2 + 1))
    (g, 0)).1
  { ms with
      gameState := Phase.PLAYING
      gameCountdown := 120
      roundNumber := ms.roundNumber + 1
      game := g }

/-- The resolution of a queue-countdown expiry in GameServerManager.updateTimers
(the body of the `checkGamePaused().then(...)` continuation, with the externally
observed paused flag as a parameter): paused resets the countdown to 60s, fewer
than 2 queued players resets the countdown to 60s, otherwise the game starts. -/
def resolveQueueExpiry (paused : Bool) (ms : ManagerState) : ManagerState :=
  if paused then { ms with queueCountdown := 60 }
  else if ms.queuedPlayers.length ≥ 2 then startGame ms
  else { ms with queueCountdown := 60 }

/-- The map with every jump-pad block removed (used to express that jump pads are
invisible to upward-moving collision queries). -/
def removeJumpPads (m : GameMap) : GameMap :=
  { m with blocks := m.blocks.filter (fun b => !(b.imageIndex == JUMP_PAD_INDEX)) }

/-- A color-mutating operation between two snapshot emissions: a `setBlockColor`
call or a `resetAllBlocks` call. -/
inductive PaintOp where
  | set (row col : Nat) (color : Color)
  | reset
deriving DecidableEq, Repr

/-- Apply one color-mutating operation to the server state. -/
def applyPaintOp (g : GameState) : PaintOp → GameState
  | .set row col color =>
    let r := setBlockColor g.map g.blockColors g.changedBlocks row col color
    { g with blockColors := r.1, changedBlocks := r.2 }
  | .reset => resetAllBlocks g

/-- Apply a sequence of color-mutating operations in order. -/
def applyPaintOps (g : GameState) (ops : List PaintOp) : GameState :=
  ops.foldl applyPaintOp g

/-- Whether one operation, executed in state `g`, marks `cell` dirty: a
`setBlockColor` does so exactly when the cell is in range, exists, and either
actually changes color or sits at/beneath a spawn point; a `resetAllBlocks`
marks every existing in-range cell. -/
def opDirties (g : GameState) (op : PaintOp) (cell : Nat × Nat) : Prop :=
  match op with
  | .set row col color =>
    cell = (row, col) ∧ row < g.map.mapRows ∧ col < g.map.mapCols ∧
      blockExistsAt g.map row col = true ∧
      (g.blockColors row col ≠ color ∨ isAtSpawnCell g.map row col = true)
  | .reset =>
    cell.1 < g.map.mapRows ∧ cell.2 < g.map.mapCols ∧ blockExistsAt g.map cell.1 cell.2 = true

/-- The delta-compression property exactly as the specification claims it: after
any operation sequence between two emissions, the next snapshot's blockChanges
contains a cell if and only if that cell's color changed since the previous
emission or the cell is spawn-adjacent. -/
def deltaMatchesClaim (g : GameState) (ops : List PaintOp) (t : ℚ) : Prop :=
  ∀ row col,
    (∃ ch ∈ (getSnapshot (applyPaintOps g ops) t).1.blockChanges, ch.row = row ∧ ch.col = col) ↔
      ((applyPaintOps g ops).blockColors row col ≠ g.blockColors row col ∨
        isAtSpawnCell g.map row col = true)

/-- Successive application of input batches for one player: each batch carries an
event list, the client game time and an optional sequence number, and is applied
with GameServer.applyInputs. -/
def applyBatches (g : GameState) (pid : String)
    (batches : List (List InputEvent × Option ℚ × Option Nat)) : Except Unit GameState :=
  batches.foldlM (fun g b => applyInputs g pid b.1 b.2.1 b.2.2) g

/-- The alternating round-robin team assignment startGame performs over the queued
player list: players at even positions (counting from k) go red, odd positions
blue. -/
def assignTeams (k : Nat) : List String → List (String × Color)
  | [] => []
  | pid :: rest => (pid, if k % 2 = 0 then Color.red else Color.blue) :: assignTeams (k + 1) rest

/-- C1: for every map, spawn-index state, player state, input state and fixed dt,
running the per-tick player step of updateGame (including applyMovement and
processJumpInput) twice from the same inputs produces identical results: the
embedded step is a pure function of its explicit inputs. -/
theorem c1_stepPlayer_two_run_deterministic (m : GameMap) (si : SpawnIndices) (p : Player)
    (inp : Option InputState) (dt : ℚ) :
    stepPlayer m si p inp dt = stepPlayer m si p inp dt := rfl

/-- C10: getSnapshot leaves players, playerInputs, bombs, thrownBombs, blockColors,
lastProcessedSequence and gameTime (and the map, accumulator and spawn indices)
unchanged; its only mutation of the state is clearing the changedBlocks set. -/
theorem c10_getSnapshot_frame (g : GameState) (t : ℚ) :
    (getSnapshot g t).2 = { g with changedBlocks := [] } ∧
    (getSnapshot g t).2.players = g.players ∧
    (getSnapshot g t).2.inputs = g.inputs ∧
    (getSnapshot g t).2.bombs = g.bombs ∧
    (getSnapshot g t).2.thrownBombs = g.thrownBombs ∧
    (getSnapshot g t).2.blockColors = g.blockColors ∧
    (getSnapshot g t).2.lastProcessedSequence = g.lastProcessedSequence ∧
    (getSnapshot g t).2.gameTime = g.gameTime ∧
    (getSnapshot g t).2.changedBlocks = [] :=
  ⟨rfl, rfl, rfl, rfl, rfl, rfl, rfl, rfl, rfl⟩

/-- Reduction of processJumpInput on an edge-triggered press away from jump pads:
the jump branch chain of the source, with the pad guards discharged. -/
theorem processJumpInput_reduce (m : GameMap) (p : Player) (inp : InputState)
    (hw : inp.w = true) (he : inp.wasPressingW = false)
    (hi : checkJumpPadCollision m p.x p.y = false)
    (hp : ∀ g, getGroundY m p.x p.y = some g → getJumpPadAt m p.x g = none) :
    processJumpInput m p inp =
      (if p.onGround then { p with velocityY := JUMP_POWER, jumpsUsed := 1, onGround := false }
       else if isTouchingBlock m p.x p.y then { p with velocityY := JUMP_POWER, jumpsUsed := 0 }
       else if p.jumpsUsed < MAX_JUMPS ∧ p.velocityY > 0 then
         { p with velocityY := JUMP_POWER, jumpsUsed := p.jumpsUsed + 1 }
       else p, { inp with wasPressingW := inp.w }) := by
  unfold processJumpInput
  rw [hw, he]
  simp only [Bool.not_false, Bool.and_true, hi, Bool.or_false]
  cases hg : getGroundY m p.x p.y with
  | none =>
    repeat' split
    all_goals simp_all
  | some g =>
    simp only [hp g hg, Option.isSome_none, Bool.false_or, hi]
    repeat' split
    all_goals simp_all

/-- C4: away from jump pads, an edge-triggered jump (w pressed this tick, not
pressed the previous tick) from the ground sets jumpsUsed = 1 and
velocityY = JUMP_POWER; a second edge-triggered jump while airborne, not touching
any block and falling (velocityY > 0) sets jumpsUsed = 2 and velocityY =
JUMP_POWER; a third edge-triggered jump attempted under the same airborne
conditions with jumpsUsed = 2 is refused and leaves the player (in particular
velocityY) unchanged. -/
theorem c4_jump_quota (m : GameMap) (p1 p2 p3 : Player) (inp1 inp2 inp3 : InputState)
    (h1w : inp1.w = true) (h1e : inp1.wasPressingW = false)
    (h1g : p1.onGround = true)
    (h1p : ∀ g, getGroundY m p1.x p1.y = some g → getJumpPadAt m p1.x g = none)
    (h1i : checkJumpPadCollision m p1.x p1.y = false)
    (h2w : inp2.w = true) (h2e : inp2.wasPressingW = false)
    (h2g : p2.onGround = false) (h2t : isTouchingBlock m p2.x p2.y = false)
    (h2v : p2.velocityY > 0) (h2j : p2.jumpsUsed = 1)
    (h2p : ∀ g, getGroundY m p2.x p2.y = some g → getJumpPadAt m p2.x g = none)
    (h2i : checkJumpPadCollision m p2.x p2.y = false)
    (h3w : inp3.w = true) (h3e : inp3.wasPressingW = false)
    (h3g : p3.onGround = false) (h3t : isTouchingBlock m p3.x p3.y = false)
    (h3v : p3.velocityY > 0) (h3j : p3.jumpsUsed = 2)
    (h3p : ∀ g, getGroundY m p3.x p3.y = some g → getJumpPadAt m p3.x g = none)
    (h3i : checkJumpPadCollision m p3.x p3.y = false) :
    ((processJumpInput m p1 inp1).1.jumpsUsed = 1 ∧
      (processJumpInput m p1 inp1).1.velocityY = JUMP_POWER) ∧
    ((processJumpInput m p2 inp2).1.jumpsUsed = 2 ∧
      (processJumpInput m p2 inp2).1.velocityY = JUMP_POWER) ∧
    (processJumpInput m p3 inp3).1 = p3 := by
  rw [processJumpInput_reduce m p1 inp1 h1w h1e h1i h1p,
      processJumpInput_reduce m p2 inp2 h2w h2e h2i h2p,
      processJumpInput_reduce m p3 inp3 h3w h3e h3i h3p]
  refine ⟨?_, ?_, ?_⟩
  · rw [if_pos h1g]; exact ⟨rfl, rfl⟩
  · rw [if_neg (by simp [h2g]), if_neg (by simp [h2t]),
      if_pos ⟨by rw [h2j]; decide, h2v⟩, h2j]
    exact ⟨rfl, rfl⟩
  · rw [if_neg (by simp [h3g]), if_neg (by simp [h3t]),
      if_neg (by rw [h3j]; exact fun h => absurd h.1 (by decide))]

/-- Witness for c4_jump_quota: concrete players on the empty map with edge-triggered
jump inputs exercising all three scenarios. -/
theorem c4_jump_quota_witness :
    ((processJumpInput (GameMap.mk 43 63 20 20 0 0 20 20 [] [] [] [])
        (Player.mk "p1" Color.red 10 100 0 false true 0 false) (InputState.mk false false true false false false)).1.jumpsUsed = 1 ∧
      (processJumpInput (GameMap.mk 43 63 20 20 0 0 20 20 [] [] [] [])
        (Player.mk "p1" Color.red 10 100 0 false true 0 false) (InputState.mk false false true false false false)).1.velocityY = JUMP_POWER) ∧
    ((processJumpInput (GameMap.mk 43 63 20 20 0 0 20 20 [] [] [] [])
        (Player.mk "p2" Color.red 10 100 50 false false 1 false) (InputState.mk false false true false false false)).1.jumpsUsed = 2 ∧
      (processJumpInput (GameMap.mk 43 63 20 20 0 0 20 20 [] [] [] [])
        (Player.mk "p2" Color.red 10 100 50 false false 1 false) (InputState.mk false false true false false false)).1.velocityY = JUMP_POWER) ∧
    (processJumpInput (GameMap.mk 43 63 20 20 0 0 20 20 [] [] [] [])
        (Player.mk "p3" Color.red 10 100 50 false false 2 false) (InputState.mk false false true false false false)).1 =
      Player.mk "p3" Color.red 10 100 50 false false 2 false :=
  c4_jump_quota (GameMap.mk 43 63 20 20 0 0 20 20 [] [] [] [])
    (Player.mk "p1" Color.red 10 100 0 false true 0 false)
    (Player.mk "p2" Color.red 10 100 50 false false 1 false)
    (Player.mk "p3" Color.red 10 100 50 false false 2 false)
    (InputState.mk false false true false false false)
    (InputState.mk false false true false false false)
    (InputState.mk false false true false false false)
    rfl rfl rfl (by intro g h; simp [getGroundY] at h) (by decide)
    rfl rfl rfl (by decide) (by decide) rfl (by intro g h; simp [getGroundY] at h) (by decide)
    rfl rfl rfl (by decide) (by decide) rfl (by intro g h; simp [getGroundY] at h) (by decide)

/-- updateGame never touches the game clock. -/
theorem updateGame_gameTime (g : GameState) (dt : ℚ) : (updateGame g dt).gameTime = g.gameTime := rfl

/-- updateGame never touches the accumulator. -/
theorem updateGame_accumulator (g : GameState) (dt : ℚ) :
    (updateGame g dt).accumulator = g.accumulator := rfl

/-- One fixed step advances the clock by exactly the fixed timestep. -/
theorem tickOnce_gameTime (g : GameState) : (tickOnce g).gameTime = g.gameTime + fixedTimestep := rfl

/-- n fixed steps advance the clock by exactly n times the fixed timestep. -/
theorem iterate_tickOnce_gameTime (n : Nat) (g : GameState) :
    (tickOnce^[n] g).gameTime = g.gameTime + n * fixedTimestep := by
  induction n generalizing g with
  | zero => simp
  | succ k ih =>
    rw [Function.iterate_succ_apply, ih, tickOnce_gameTime]
    push_cast
    ring

/-- The bounded while loop of update executes some number of fixed steps within
its fuel budget. -/
theorem updateSteps_spec (fuel : Nat) (g : GameState) :
    ∃ n, n ≤ fuel ∧ updateSteps fuel g = tickOnce^[n] g := by
  induction fuel generalizing g with
  | zero => exact ⟨0, le_refl 0, rfl⟩
  | succ k ih =>
    by_cases h : g.accumulator ≥ fixedTimestep
    · obtain ⟨n, hn, heq⟩ := ih (tickOnce g)
      refine ⟨n + 1, Nat.succ_le_succ hn, ?_⟩
      rw [updateSteps, if_pos h, heq, Function.iterate_succ_apply]
    · exact ⟨0, Nat.zero_le _, by rw [updateSteps, if_neg h]; rfl⟩

/-- C9: every invocation of update first clamps deltaTime to at most 0.1s and adds
it to the accumulator; the result is exactly some number n ≤ 5 of fixed 1/60s
steps applied to that state (followed by the leftover-accumulator clamp), and
gameTime increases by exactly n times 1/60. -/
theorem c9_update_fixed_timestep (g : GameState) (deltaTime : ℚ) :
    ∃ n, n ≤ 5 ∧
      update g deltaTime =
        (let gn := tickOnce^[n] { g with accumulator := g.accumulator + min deltaTime (1/10) }
         if gn.accumulator ≥ fixedTimestep then { gn with accumulator := fixedTimestep } else gn) ∧
      (update g deltaTime).gameTime = g.gameTime + n * fixedTimestep ∧
      update g deltaTime = update g (min deltaTime (1/10)) := by
  obtain ⟨n, hn, hsteps⟩ :=
    updateSteps_spec 5 { g with accumulator := g.accumulator + min deltaTime (1/10) }
  refine ⟨n, hn, ?_, ?_, ?_⟩
  · simp only [update]
    rw [hsteps]
  · simp only [update]
    rw [hsteps]
    by_cases h : (tickOnce^[n] { g with accumulator := g.accumulator + min deltaTime (1/10) }).accumulator ≥ fixedTimestep
    · rw [if_pos h]
      exact iterate_tickOnce_gameTime n _
    · rw [if_neg h]
      exact iterate_tickOnce_gameTime n _
  · unfold update
    rw [min_assoc, min_self]

/-- A jump-pad block never produces a collision result while moving upward: the
first pass-through guard fires. -/
theorem collideOne_pad_up (m : GameMap) (x y vY : ℚ) (b : Block)
    (hb : b.imageIndex = JUMP_PAD_INDEX) (hv : vY < 0) :
    collideOne m x y vY b = none := by
  simp only [collideOne]
  split_ifs <;> simp_all

/-- While moving upward, the collision scan gives the same result whether or not
the jump-pad blocks are present: pads are invisible to checkCollision when
velocityY < 0. -/
theorem checkCollision_up_skips_pads (m : GameMap) (x y vY : ℚ) (prevY : Option ℚ)
    (hv : vY < 0) :
    checkCollision m x y vY prevY = checkCollision (removeJumpPads m) x y vY prevY := by
  unfold checkCollision removeJumpPads
  have : ∀ blocks : List Block,
      blocks.findSome? (collideOne m x y vY) =
      (blocks.filter (fun b => !(b.imageIndex == JUMP_PAD_INDEX))).findSome? (collideOne m x y vY) := by
    intro blocks
    induction blocks with
    | nil => rfl
    | cons b bs ih =>
      by_cases hb : b.imageIndex = JUMP_PAD_INDEX
      · simp only [List.filter_cons, hb, beq_self_eq_true, Bool.not_true, if_neg,
          List.findSome?_cons, collideOne_pad_up m x y vY b hb hv]
        exact ih
      · have hbb : (b.imageIndex == JUMP_PAD_INDEX) = false := by
          simp [hb]
        simp only [List.filter_cons, hbb, Bool.not_false, if_pos, List.findSome?_cons]
        cases collideOne m x y vY b with
        | none => exact ih
        | some r => rfl
  rw [this m.blocks]
  rfl

/-- On a map whose blocks are all jump pads, upward-moving collision checks find
nothing. -/
theorem checkCollision_all_pads_up (m : GameMap) (x y vY : ℚ) (prevY : Option ℚ)
    (hv : vY < 0) (hall : ∀ b ∈ m.blocks, b.imageIndex = JUMP_PAD_INDEX) :
    checkCollision m x y vY prevY = ⟨false, none⟩ := by
  rw [checkCollision_up_skips_pads m x y vY prevY hv]
  unfold checkCollision removeJumpPads
  have : m.blocks.filter (fun b => !(b.imageIndex == JUMP_PAD_INDEX)) = [] := by
    rw [List.filter_eq_nil_iff]
    intro b hb
    simp [hall b hb]
  simp only [this]
  rfl

/-- On an all-jump-pad map, the vertical movement resolution of updateGame lets an
upward-moving player pass straight through: y advances by the full velocity step
and the velocity stays negative (it is never zeroed). -/
theorem step4Vertical_all_pads_up (m : GameMap) (p : Player) (dt : ℚ)
    (hall : ∀ b ∈ m.blocks, b.imageIndex = JUMP_PAD_INDEX) (hp : p.velocityY < 0) :
    (step4Vertical m p dt).y = p.y + p.velocityY * dt ∧
    (step4Vertical m p dt).velocityY < 0 := by
  have hcol := checkCollision_all_pads_up m p.x (p.y + p.velocityY * dt) p.velocityY (some p.y) hp hall
  have hnot : ¬ (p.velocityY > 0) := by linarith
  simp only [step4Vertical, hnot, if_false, hcol]
  split_ifs
  all_goals try contradiction
  all_goals refine ⟨rfl, ?_⟩
  all_goals first
    | exact hp
    | norm_num [JUMP_PAD_BOUNCE]

/-- C6: while moving upward (velocityY < 0), checkCollision never reports a
collision against a jump-pad block — removing every jump-pad block from the map
does not change its result on any input — and, on a map consisting only of
jump-pad cells, the vertical-movement resolution of updateGame never halts the
motion or zeroes the velocity: y advances by the full velocity step and the
resulting velocity is still negative. -/
theorem c6_jump_pad_one_way (m1 : GameMap) (x y vY : ℚ) (prevY : Option ℚ) (hv : vY < 0)
    (m2 : GameMap) (p : Player) (dt : ℚ)
    (hall : ∀ b ∈ m2.blocks, b.imageIndex = JUMP_PAD_INDEX) (hp : p.velocityY < 0) :
    checkCollision m1 x y vY prevY = checkCollision (removeJumpPads m1) x y vY prevY ∧
    (checkCollision m2 p.x (p.y + p.velocityY * dt) p.velocityY (some p.y)).collided = false ∧
    (step4Vertical m2 p dt).y = p.y + p.velocityY * dt ∧
    (step4Vertical m2 p dt).velocityY < 0 := by
  obtain ⟨h1, h2⟩ := step4Vertical_all_pads_up m2 p dt hall hp
  refine ⟨checkCollision_up_skips_pads m1 x y vY prevY hv, ?_, h1, h2⟩
  rw [checkCollision_all_pads_up m2 p.x (p.y + p.velocityY * dt) p.velocityY (some p.y) hp hall]

/-- Witness for c6_jump_pad_one_way: a map with a single regular block and, for the
all-pads part, a single jump-pad cell, with an upward approach velocity. -/
theorem c6_jump_pad_one_way_witness :
    checkCollision (GameMap.mk 43 63 20 20 0 0 20 20 [Block.mk 0 0 0 100 20 20 0] [] [] [])
        10 110 (-100) (some 120) =
      checkCollision (removeJumpPads (GameMap.mk 43 63 20 20 0 0 20 20 [Block.mk 0 0 0 100 20 20 0] [] [] []))
        10 110 (-100) (some 120) ∧
    (checkCollision (GameMap.mk 43 63 20 20 0 0 20 20 [Block.mk 0 0 0 100 20 20 9] [] [] [])
        (Player.mk "p1" Color.red 10 110 (-100) false false 0 false).x
        ((Player.mk "p1" Color.red 10 110 (-100) false false 0 false).y +
          (Player.mk "p1" Color.red 10 110 (-100) false false 0 false).velocityY * (1/60))
        (Player.mk "p1" Color.red 10 110 (-100) false false 0 false).velocityY
        (some (Player.mk "p1" Color.red 10 110 (-100) false false 0 false).y)).collided = false ∧
    (step4Vertical (GameMap.mk 43 63 20 20 0 0 20 20 [Block.mk 0 0 0 100 20 20 9] [] [] [])
        (Player.mk "p1" Color.red 10 110 (-100) false false 0 false) (1/60)).y =
      (Player.mk "p1" Color.red 10 110 (-100) false false 0 false).y +
        (Player.mk "p1" Color.red 10 110 (-100) false false 0 false).velocityY * (1/60) ∧
    (step4Vertical (GameMap.mk 43 63 20 20 0 0 20 20 [Block.mk 0 0 0 100 20 20 9] [] [] [])
        (Player.mk "p1" Color.red 10 110 (-100) false false 0 false) (1/60)).velocityY < 0 :=
  c6_jump_pad_one_way (GameMap.mk 43 63 20 20 0 0 20 20 [Block.mk 0 0 0 100 20 20 0] [] [] [])
    10 110 (-100) (some 120) (by norm_num)
    (GameMap.mk 43 63 20 20 0 0 20 20 [Block.mk 0 0 0 100 20 20 9] [] [] [])
    (Player.mk "p1" Color.red 10 110 (-100) false false 0 false) (1/60)
    (by intro b hb; simp at hb; rw [hb]; rfl) (by norm_num)

/-- The event loop of applyInputs cannot fail when every event carries a key. -/
theorem applyEvents_isOk (st : InputState) (events : List InputEvent)
    (hwf : ∀ e ∈ events, e.key ≠ none) :
    ∃ st', applyEvents st events = .ok st' := by
  induction events generalizing st with
  | nil => exact ⟨st, rfl⟩
  | cons e rest ih =>
    cases hk : e.key with
    | none => exact absurd hk (hwf e (List.mem_cons_self e rest))
    | some k =>
      have hrest : ∀ x ∈ rest, x.key ≠ none := fun x hx => hwf x (List.mem_cons_of_mem e hx)
      unfold applyEvents
      rw [hk]
      dsimp only
      by_cases hc : (["a", "d", "w", "s"].contains (jsToLower k) : Bool)
      · rw [if_pos hc]; exact ih _ hrest
      · rw [if_neg hc]; exact ih _ hrest

/-- Reading back the key just written by a `Map.set` style update. -/
theorem assocGet_assocSet_self {κ α : Type} [BEq κ] [LawfulBEq κ]
    (l : List (κ × α)) (k : κ) (v : α) : assocGet (assocSet l k v) k = some v := by
  unfold assocGet assocSet
  by_cases h : l.any (fun e => e.1 == k)
  · rw [if_pos h]
    induction l with
    | nil => simp at h
    | cons e rest ih =>
      by_cases he : (e.1 == k)
      · simp [List.find?, he]
      · simp only [List.any_cons, he, Bool.false_or] at h
        simp only [List.map_cons, if_neg (by simp_all : ¬ (e.1 == k) = true)]
        rw [List.find?]
        simp only [he]
        exact ih h
  · rw [if_neg h]
    induction l with
    | nil => simp [List.find?]
    | cons e rest ih =>
      simp only [List.any_cons, Bool.or_eq_true, not_or] at h
      simp only [List.cons_append, List.find?]
      have : (e.1 == k) = false := by simpa using h.1
      rw [this]
      exact ih (by simpa using h.2)

/-- A successful applyInputs call keeps the player list and records exactly the
batch's sequence number (when one is present) for that player. -/
theorem applyInputs_ok_of_wf (g : GameState) (pid : String) (events : List InputEvent)
    (gt : Option ℚ) (seq : Option Nat)
    (hplayer : g.players.any (fun p => p.playerId == pid) = true)
    (hwf : ∀ e ∈ events, e.key ≠ none) :
    ∃ g', applyInputs g pid events gt seq = .ok g' ∧
      g'.players = g.players ∧
      g'.lastProcessedSequence =
        (match seq with
         | some s => assocSet g.lastProcessedSequence pid s
         | none => g.lastProcessedSequence) := by
  unfold applyInputs
  rw [hplayer]
  obtain ⟨st', hst⟩ := applyEvents_isOk
    ((assocGet (if g.inputs.any (fun e => e.1 == pid) then g.inputs
      else g.inputs ++ [(pid, defaultInputState)]) pid).getD defaultInputState) events hwf
  simp only [Bool.not_true, Bool.false_eq_true, if_false, hst]
  exact ⟨_, rfl, rfl, rfl⟩

/-- C7 (amended): for an existing player and any sequence of successfully applied
input batches, the store records the sequence number of the most recently applied
batch that carried one (initially the previously recorded value) — not the
maximum — and getSnapshot reproduces the recorded map verbatim in
lastProcessedSequences; in particular, applying batches with sequences 1, 2, 3 in
order records 3. -/
theorem c7_sequence_recording (g : GameState) (pid : String)
    (batches : List (List InputEvent × Option ℚ × Option Nat)) (t : ℚ)
    (hplayer : g.players.any (fun p => p.playerId == pid) = true)
    (hwf : ∀ b ∈ batches, ∀ e ∈ b.1, e.key ≠ none) :
    ∃ g', applyBatches g pid batches = .ok g' ∧
      assocGet g'.lastProcessedSequence pid =
        (batches.filterMap (fun b => b.2.2)).foldl (fun _ s => some s)
          (assocGet g.lastProcessedSequence pid) ∧
      (getSnapshot g' t).1.lastProcessedSequences = g'.lastProcessedSequence := by
  induction batches generalizing g with
  | nil => exact ⟨g, rfl, by simp, rfl⟩
  | cons b bs ih =>
    obtain ⟨g1, h1, hpl, hseq⟩ := applyInputs_ok_of_wf g pid b.1 b.2.1 b.2.2 hplayer
      (hwf b (List.mem_cons_self b bs))
    have hplayer1 : g1.players.any (fun p => p.playerId == pid) = true := by
      rw [hpl]; exact hplayer
    obtain ⟨g', h2, h3, h4⟩ := ih g1 hplayer1 (fun x hx => hwf x (List.mem_cons_of_mem b hx))
    refine ⟨g', ?_, ?_, h4⟩
    · rw [show applyBatches g pid (b :: bs) =
          applyInputs g pid b.1 b.2.1 b.2.2 >>= (fun g1 => applyBatches g1 pid bs) from rfl, h1]
      exact h2
    · rw [h3]
      cases hb : b.2.2 with
      | none =>
        rw [hseq, hb]
        simp only [List.filterMap_cons, hb]
      | some s =>
        have : assocGet g1.lastProcessedSequence pid = some s := by
          rw [hseq, hb]
          exact assocGet_assocSet_self g.lastProcessedSequence pid s
        rw [this]
        simp only [List.filterMap_cons, hb, List.foldl_cons]

/-- Witness for c7_sequence_recording: a concrete one-player state and batches with
sequences 1, 2, 3 applied in order; the recorded and snapshot value is 3. -/
theorem c7_sequence_recording_witness :
    ∃ g', applyBatches
        (GameState.mk (GameMap.mk 43 63 20 20 0 0 20 20 [] [] [] [])
          [Player.mk "p1" Color.red 10 100 0 false true 0 false] [] [] [] []
          (fun _ _ => Color.white) [] 0 0 (SpawnIndices.mk 0 0))
        "p1" [([], none, some 1), ([], none, some 2), ([], none, some 3)] = .ok g' ∧
      assocGet g'.lastProcessedSequence "p1" = some 3 ∧
      (getSnapshot g' 0).1.lastProcessedSequences = g'.lastProcessedSequence := by
  have h := c7_sequence_recording
    (GameState.mk (GameMap.mk 43 63 20 20 0 0 20 20 [] [] [] [])
      [Player.mk "p1" Color.red 10 100 0 false true 0 false] [] [] [] []
      (fun _ _ => Color.white) [] 0 0 (SpawnIndices.mk 0 0))
    "p1" [([], none, some 1), ([], none, some 2), ([], none, some 3)] 0
    (by decide) (by intro b hb e he; simp at hb; rcases hb with h1 | h1 | h1 <;> simp [h1] at he)
  simpa using h

/-- C7 (counterexample): the store records the last applied sequence, not the
highest: applying batches with sequences 3 then 1 (both successfully applied)
leaves lastProcessedSequence at 1, not at the highest applied value 3. -/
theorem c7_counterexample :
    (applyBatches
        (GameState.mk (GameMap.mk 43 63 20 20 0 0 20 20 [] [] [] [])
          [Player.mk "p1" Color.red 10 100 0 false true 0 false] [] [] [] []
          (fun _ _ => Color.white) [] 0 0 (SpawnIndices.mk 0 0))
        "p1" [([], none, some 3), ([], none, some 1)]).map
      (fun g => assocGet g.lastProcessedSequence "p1") = .ok (some 1) ∧
    some (1 : Nat) ≠ some 3 := by
  constructor
  · rfl
  · decide

/-- Events whose key is present but unrecognised are skipped without touching the
input state. -/
theorem applyEvents_unknown_keys (st : InputState) (events : List InputEvent)
    (hunk : ∀ e ∈ events, ∃ k, e.key = some k ∧
      (["a", "d", "w", "s"].contains (jsToLower k)) = false) :
    applyEvents st events = .ok st := by
  induction events with
  | nil => rfl
  | cons e rest ih =>
    obtain ⟨k, hk, hc⟩ := hunk e (List.mem_cons_self e rest)
    unfold applyEvents
    rw [hk]
    dsimp only
    rw [if_neg (by rw [hc]; exact Bool.false_ne_true)]
    exact ih (fun x hx => hunk x (List.mem_cons_of_mem e hx))

/-- An association list that contains a key yields a value for it. -/
theorem assocGet_isSome_of_any {κ α : Type} [BEq κ] (l : List (κ × α)) (k : κ)
    (h : l.any (fun e => e.1 == k) = true) : ∃ v, assocGet l k = some v := by
  induction l with
  | nil => simp at h
  | cons e rest ih =>
    by_cases he : (e.1 == k)
    · exact ⟨e.2, by simp [assocGet, List.find?, he]⟩
    · simp only [List.any_cons, he, Bool.false_or] at h
      obtain ⟨v, hv⟩ := ih h
      exact ⟨v, by simpa [assocGet, List.find?, he] using hv⟩

/-- C8 (amended): an inbound input event whose key is a string other than a/d/w/s
(case-insensitive) is silently dropped: input application succeeds (no exception)
and leaves the player's input state and the player list unchanged. (A payload
whose event lacks a key is different: see the counterexample.) -/
theorem c8_unknown_keys_dropped (g : GameState) (pid : String) (events : List InputEvent)
    (gt : Option ℚ) (seq : Option Nat)
    (hplayer : g.players.any (fun p => p.playerId == pid) = true)
    (hin : g.inputs.any (fun e => e.1 == pid) = true)
    (hunk : ∀ e ∈ events, ∃ k, e.key = some k ∧
      (["a", "d", "w", "s"].contains (jsToLower k)) = false) :
    ∃ g', applyInputs g pid events gt seq = .ok g' ∧
      assocGet g'.inputs pid = assocGet g.inputs pid ∧
      g'.players = g.players := by
  obtain ⟨cur, hcur⟩ := assocGet_isSome_of_any g.inputs pid hin
  unfold applyInputs
  rw [hplayer]
  simp only [Bool.not_true, Bool.false_eq_true, if_false, hin, if_true]
  rw [applyEvents_unknown_keys _ events hunk]
  refine ⟨_, rfl, ?_, rfl⟩
  rw [assocGet_assocSet_self, hcur]
  simp [hcur]

/-- Witness for c8_unknown_keys_dropped: a concrete state and an event with the
unrecognised key "x". -/
theorem c8_unknown_keys_dropped_witness :
    ∃ g', applyInputs
        (GameState.mk (GameMap.mk 43 63 20 20 0 0 20 20 [] [] [] [])
          [Player.mk "p1" Color.red 10 100 0 false true 0 false]
          [("p1", defaultInputState)] [] [] []
          (fun _ _ => Color.white) [] 0 0 (SpawnIndices.mk 0 0))
        "p1" [InputEvent.mk (some "x") true] none (some 7) = .ok g' ∧
      assocGet g'.inputs "p1" =
        assocGet (GameState.mk (GameMap.mk 43 63 20 20 0 0 20 20 [] [] [] [])
          [Player.mk "p1" Color.red 10 100 0 false true 0 false]
          [("p1", defaultInputState)] [] [] []
          (fun _ _ => Color.white) [] 0 0 (SpawnIndices.mk 0 0)).inputs "p1" ∧
      g'.players =
        (GameState.mk (GameMap.mk 43 63 20 20 0 0 20 20 [] [] [] [])
          [Player.mk "p1" Color.red 10 100 0 false true 0 false]
          [("p1", defaultInputState)] [] [] []
          (fun _ _ => Color.white) [] 0 0 (SpawnIndices.mk 0 0)).players :=
  c8_unknown_keys_dropped
    (GameState.mk (GameMap.mk 43 63 20 20 0 0 20 20 [] [] [] [])
      [Player.mk "p1" Color.red 10 100 0 false true 0 false]
      [("p1", defaultInputState)] [] [] []
      (fun _ _ => Color.white) [] 0 0 (SpawnIndices.mk 0 0))
    "p1" [InputEvent.mk (some "x") true] none (some 7)
    (by decide) (by decide)
    (by intro e he; simp at he; exact ⟨"x", by rw [he], by decide⟩)

/-- C8 (counterexample): a malformed payload is not silently dropped — an input
event without a key makes input application raise (the uncaught TypeError from
`input.key.toLowerCase()`), modelled as the error result. -/
theorem c8_malformed_payload_crashes :
    applyInputs
      (GameState.mk (GameMap.mk 43 63 20 20 0 0 20 20 [] [] [] [])
        [Player.mk "p1" Color.red 10 100 0 false true 0 false]
        [("p1", defaultInputState)] [] [] []
        (fun _ _ => Color.white) [] 0 0 (SpawnIndices.mk 0 0))
      "p1" [InputEvent.mk none true] none (some 7) = .error () := rfl

/-- Adding a player whose id is not yet present appends a record with that id and
team. -/
theorem addPlayer_players_of_fresh (g : GameState) (pid : String) (team : Color)
    (h : g.players.any (fun q => q.playerId == pid) = false) :
    ∃ newP : Player, (addPlayer g pid team).players = g.players ++ [newP] ∧
      newP.playerId = pid ∧ newP.team = team := by
  simp only [addPlayer, h, Bool.false_eq_true, if_false]
  exact ⟨_, rfl, rfl, rfl⟩

/-- The team-assignment fold of startGame: starting from pairwise-fresh queued ids,
it appends one player per queued id with the alternating team assignment, and
leaves the block colors, bombs and map untouched. -/
theorem startGame_fold_spec (queue : List String) :
    ∀ (g : GameState) (k : Nat), queue.Nodup →
    (∀ pid ∈ queue, g.players.any (fun q => q.playerId == pid) = false) →
    ((queue.foldl (fun (acc : GameState × Nat) pid =>
        (addPlayer acc.1 pid (if acc.2 % 2 = 0 then Color.red else Color.blue), acc.2 + 1))
      (g, k)).1.players.map (fun p => (p.playerId, p.team)) =
        g.players.map (fun p => (p.playerId, p.team)) ++ assignTeams k queue) ∧
    ((queue.foldl (fun (acc : GameState × Nat) pid =>
        (addPlayer acc.1 pid (if acc.2 % 2 = 0 then Color.red else Color.blue), acc.2 + 1))
      (g, k)).1.blockColors = g.blockColors) ∧
    ((queue.foldl (fun (acc : GameState × Nat) pid =>
        (addPlayer acc.1 pid (if acc.2 % 2 = 0 then Color.red else Color.blue), acc.2 + 1))
      (g, k)).1.bombs = g.bombs) ∧
    ((queue.foldl (fun (acc : GameState × Nat) pid =>
        (addPlayer acc.1 pid (if acc.2 % 2 = 0 then Color.red else Color.blue), acc.2 + 1))
      (g, k)).1.map = g.map) := by
  induction queue with
  | nil => intro g k _ _; exact ⟨(List.append_nil _).symm, rfl, rfl, rfl⟩
  | cons pid rest ih =>
    intro g k hnodup hfresh
    obtain ⟨newP, hps, hid, hteam⟩ :=
      addPlayer_players_of_fresh g pid (if k % 2 = 0 then Color.red else Color.blue)
        (hfresh pid (List.mem_cons_self pid rest))
    have hfresh1 : ∀ r ∈ rest,
        (addPlayer g pid (if k % 2 = 0 then Color.red else Color.blue)).players.any
          (fun q => q.playerId == r) = false := by
      intro r hr
      rw [hps, List.any_append]
      have h1 : g.players.any (fun q => q.playerId == r) = false :=
        hfresh r (List.mem_cons_of_mem pid hr)
      have h2 : (newP.playerId == r) = false := by
        rw [hid]
        have : pid ≠ r := fun he => (List.nodup_cons.mp hnodup).1 (he ▸ hr)
        simpa using this
      simp [h1, h2]
    obtain ⟨ihm, ihc, ihb, ihmap⟩ := ih
      (addPlayer g pid (if k % 2 = 0 then Color.red else Color.blue)) (k + 1)
      (List.nodup_cons.mp hnodup).2 hfresh1
    refine ⟨?_, ?_, ?_, ?_⟩
    · rw [List.foldl_cons, ihm, hps, List.map_append, assignTeams]
      simp [hid, hteam]
    · rw [List.foldl_cons, ihc]; rfl
    · rw [List.foldl_cons, ihb]; rfl
    · rw [List.foldl_cons, ihmap]; rfl

/-- Stability of the inner (per-row) loop of resetAllBlocks: a cell already white
stays white, since every write writes white. -/
theorem resetInner_stable (m : GameMap) (row r c : Nat) (l : List Nat)
    (acc : (Nat → Nat → Color) × List (Nat × Nat)) (h : acc.1 r c = Color.white) :
    (l.foldl (fun (acc2 : (Nat → Nat → Color) × List (Nat × Nat)) col =>
      if blockExistsAt m row col then
        ((fun r c => if r = row ∧ c = col then Color.white else acc2.1 r c),
          addChanged acc2.2 (row, col))
      else acc2) acc).1 r c = Color.white := by
  induction l generalizing acc with
  | nil => exact h
  | cons c0 t ih =>
    rw [List.foldl_cons]
    apply ih
    by_cases hex : blockExistsAt m row c0
    · rw [if_pos hex]
      by_cases hrc : r = row ∧ c = c0
      · simp [hrc]
      · simpa [hrc] using h
    · rw [if_neg hex]; exact h

/-- The inner loop of resetAllBlocks whitens every existing cell of its row that
its column list visits. -/
theorem resetInner_sets (m : GameMap) (row c : Nat) (l : List Nat)
    (hc : c ∈ l) (hex : blockExistsAt m row c = true) :
    ∀ acc : (Nat → Nat → Color) × List (Nat × Nat),
    (l.foldl (fun (acc2 : (Nat → Nat → Color) × List (Nat × Nat)) col =>
      if blockExistsAt m row col then
        ((fun r c => if r = row ∧ c = col then Color.white else acc2.1 r c),
          addChanged acc2.2 (row, col))
      else acc2) acc).1 row c = Color.white := by
  induction l with
  | nil => simp at hc
  | cons c0 t ih =>
    intro acc
    by_cases h0 : c0 = c
    · subst h0
      rw [List.foldl_cons, if_pos hex]
      apply resetInner_stable
      simp
    · have hc' : c ∈ t := by
        rcases List.mem_cons.mp hc with h | h
        · exact absurd h.symm h0
        · exact h
      rw [List.foldl_cons]
      exact ih hc' _

/-- Stability of the outer (per-row) loop of resetAllBlocks. -/
theorem resetOuter_stable (m : GameMap) (r c : Nat) (l : List Nat)
    (acc : (Nat → Nat → Color) × List (Nat × Nat)) (h : acc.1 r c = Color.white) :
    (l.foldl (fun (acc : (Nat → Nat → Color) × List (Nat × Nat)) row =>
      (List.range m.mapCols).foldl
        (fun (acc2 : (Nat → Nat → Color) × List (Nat × Nat)) col =>
          if blockExistsAt m row col then
            ((fun r c => if r = row ∧ c = col then Color.white else acc2.1 r c),
              addChanged acc2.2 (row, col))
          else acc2) acc) acc).1 r c = Color.white := by
  induction l generalizing acc with
  | nil => exact h
  | cons row0 t ih =>
    rw [List.foldl_cons]
    exact ih _ (resetInner_stable m row0 r c _ acc h)

/-- The outer loop of resetAllBlocks whitens every existing cell whose row it
visits and whose column is in range. -/
theorem resetOuter_sets (m : GameMap) (r c : Nat) (l : List Nat)
    (hr : r ∈ l) (hc : c < m.mapCols) (hex : blockExistsAt m r c = true) :
    ∀ acc : (Nat → Nat → Color) × List (Nat × Nat),
    (l.foldl (fun (acc : (Nat → Nat → Color) × List (Nat × Nat)) row =>
      (List.range m.mapCols).foldl
        (fun (acc2 : (Nat → Nat → Color) × List (Nat × Nat)) col =>
          if blockExistsAt m row col then
            ((fun r c => if r = row ∧ c = col then Color.white else acc2.1 r c),
              addChanged acc2.2 (row, col))
          else acc2) acc) acc).1 r c = Color.white := by
  induction l with
  | nil => simp at hr
  | cons row0 t ih =>
    intro acc
    by_cases h0 : row0 = r
    · subst h0
      rw [List.foldl_cons]
      exact resetOuter_stable m row0 c t _
        (resetInner_sets m row0 c (List.range m.mapCols) (List.mem_range.mpr hc) hex acc)
    · have hr' : r ∈ t := by
        rcases List.mem_cons.mp hr with h | h
        · exact absurd h.symm h0
        · exact h
      rw [List.foldl_cons]
      exact ih hr' _

/-- resetAllBlocks turns every existing in-range cell white. -/
theorem resetAllBlocks_white (g : GameState) (r c : Nat)
    (hr : r < g.map.mapRows) (hc : c < g.map.mapCols)
    (hex : blockExistsAt g.map r c = true) :
    (resetAllBlocks g).blockColors r c = Color.white := by
  simp only [resetAllBlocks]
  exact resetOuter_sets g.map r c (List.range g.map.mapRows) (List.mem_range.mpr hr) hc hex _

/-- C3: when the queue countdown expires in QUEUE, a set paused flag resets the
countdown to 60s leaving everything else (phase included) unchanged; with fewer
than 2 queued players the countdown is likewise reset; otherwise the machine
enters PLAYING, teams are assigned by alternating round-robin over the queued
player list in order (first red, second blue, ...), every existing block color is
reset to white, and the pickup bombs are re-initialised from the map. -/
theorem c3_queue_expiry (ms : ManagerState) (hq : ms.gameState = Phase.QUEUE)
    (hnodup : ms.queuedPlayers.Nodup) (hempty : ms.game.players = []) :
    resolveQueueExpiry true ms = { ms with queueCountdown := 60 } ∧
    (ms.queuedPlayers.length < 2 →
      resolveQueueExpiry false ms = { ms with queueCountdown := 60 }) ∧
    (2 ≤ ms.queuedPlayers.length →
      (resolveQueueExpiry false ms).gameState = Phase.PLAYING ∧
      (resolveQueueExpiry false ms).game.players.map (fun p => (p.playerId, p.team)) =
        assignTeams 0 ms.queuedPlayers ∧
      (∀ row col, row < ms.game.map.mapRows → col < ms.game.map.mapCols →
        blockExistsAt ms.game.map row col = true →
        (resolveQueueExpiry false ms).game.blockColors row col = Color.white) ∧
      (resolveQueueExpiry false ms).game.bombs = initBombs ms.game.map) := by
  refine ⟨rfl, ?_, ?_⟩
  · intro hlt
    unfold resolveQueueExpiry
    rw [if_neg (by simp), if_neg (by omega)]
  · intro hge
    have hres : resolveQueueExpiry false ms = startGame ms := by
      unfold resolveQueueExpiry
      rw [if_neg (by simp), if_pos hge]
    have hgame : (startGame ms).game =
        (ms.queuedPlayers.foldl (fun (acc : GameState × Nat) pid =>
          (addPlayer acc.1 pid (if acc.2 % 2 = 0 then Color.red else Color.blue), acc.2 + 1))
          (({ resetAllBlocks ms.game with
                gameTime := 0
                bombs := initBombs (resetAllBlocks ms.game).map } : GameState), 0)).1 := rfl
    have hply : ({ resetAllBlocks ms.game with
        gameTime := 0
        bombs := initBombs (resetAllBlocks ms.game).map } : GameState).players = [] := hempty
    have hfresh : ∀ pid ∈ ms.queuedPlayers,
        ({ resetAllBlocks ms.game with
            gameTime := 0
            bombs := initBombs (resetAllBlocks ms.game).map } : GameState).players.any
          (fun q => q.playerId == pid) = false := by
      intro pid _
      rw [hply]
      rfl
    obtain ⟨hm, hc, hb, hmap⟩ := startGame_fold_spec ms.queuedPlayers
      ({ resetAllBlocks ms.game with
          gameTime := 0
          bombs := initBombs (resetAllBlocks ms.game).map } : GameState) 0 hnodup hfresh
    refine ⟨by rw [hres]; rfl, ?_, ?_, ?_⟩
    · rw [hres, hgame, hm, hply]
      rfl
    · intro row col hrow hcol hex
      rw [hres, hgame, hc]
      exact resetAllBlocks_white ms.game row col hrow hcol hex
    · rw [hres, hgame, hb]
      rfl

/-- Witness for c3_queue_expiry: a queue of two players ("p1", "p2") on a one-block
map, plus the empty-queue case for the not-enough-players branch. -/
theorem c3_queue_expiry_witness :
    resolveQueueExpiry true
        (ManagerState.mk Phase.QUEUE 0 120 0 ["p1", "p2"]
          (GameState.mk (GameMap.mk 43 63 20 20 0 0 20 20 [Block.mk 0 0 0 100 20 20 0] [] [] [])
            [] [] [] [] [] (fun _ _ => Color.red) [] 0 0 (SpawnIndices.mk 0 0))) =
      { (ManagerState.mk Phase.QUEUE 0 120 0 ["p1", "p2"]
          (GameState.mk (GameMap.mk 43 63 20 20 0 0 20 20 [Block.mk 0 0 0 100 20 20 0] [] [] [])
            [] [] [] [] [] (fun _ _ => Color.red) [] 0 0 (SpawnIndices.mk 0 0))) with
          queueCountdown := 60 } ∧
    resolveQueueExpiry false
        (ManagerState.mk Phase.QUEUE 0 120 0 []
          (GameState.mk (GameMap.mk 43 63 20 20 0 0 20 20 [Block.mk 0 0 0 100 20 20 0] [] [] [])
            [] [] [] [] [] (fun _ _ => Color.red) [] 0 0 (SpawnIndices.mk 0 0))) =
      { (ManagerState.mk Phase.QUEUE 0 120 0 []
          (GameState.mk (GameMap.mk 43 63 20 20 0 0 20 20 [Block.mk 0 0 0 100 20 20 0] [] [] [])
            [] [] [] [] [] (fun _ _ => Color.red) [] 0 0 (SpawnIndices.mk 0 0))) with
          queueCountdown := 60 } ∧
    (resolveQueueExpiry false
        (ManagerState.mk Phase.QUEUE 0 120 0 ["p1", "p2"]
          (GameState.mk (GameMap.mk 43 63 20 20 0 0 20 20 [Block.mk 0 0 0 100 20 20 0] [] [] [])
            [] [] [] [] [] (fun _ _ => Color.red) [] 0 0 (SpawnIndices.mk 0 0)))).gameState =
      Phase.PLAYING ∧
    (resolveQueueExpiry false
        (ManagerState.mk Phase.QUEUE 0 120 0 ["p1", "p2"]
          (GameState.mk (GameMap.mk 43 63 20 20 0 0 20 20 [Block.mk 0 0 0 100 20 20 0] [] [] [])
            [] [] [] [] [] (fun _ _ => Color.red) [] 0 0 (SpawnIndices.mk 0 0)))).game.players.map
        (fun p => (p.playerId, p.team)) = [("p1", Color.red), ("p2", Color.blue)] ∧
    (resolveQueueExpiry false
        (ManagerState.mk Phase.QUEUE 0 120 0 ["p1", "p2"]
          (GameState.mk (GameMap.mk 43 63 20 20 0 0 20 20 [Block.mk 0 0 0 100 20 20 0] [] [] [])
            [] [] [] [] [] (fun _ _ => Color.red) [] 0 0 (SpawnIndices.mk 0 0)))).game.blockColors
        0 0 = Color.white := by
  obtain ⟨h1, h2, h3⟩ := c3_queue_expiry
    (ManagerState.mk Phase.QUEUE 0 120 0 ["p1", "p2"]
      (GameState.mk (GameMap.mk 43 63 20 20 0 0 20 20 [Block.mk 0 0 0 100 20 20 0] [] [] [])
        [] [] [] [] [] (fun _ _ => Color.red) [] 0 0 (SpawnIndices.mk 0 0)))
    rfl (by decide) rfl
  obtain ⟨h1b, h2b, h3b⟩ := c3_queue_expiry
    (ManagerState.mk Phase.QUEUE 0 120 0 []
      (GameState.mk (GameMap.mk 43 63 20 20 0 0 20 20 [Block.mk 0 0 0 100 20 20 0] [] [] [])
        [] [] [] [] [] (fun _ _ => Color.red) [] 0 0 (SpawnIndices.mk 0 0)))
    rfl (by decide) rfl
  refine ⟨h1, h2b (by decide), (h3 (by decide)).1,
    ((h3 (by decide)).2.1).trans rfl, ?_⟩
  exact (h3 (by decide)).2.2.1 0 0 (by decide) (by decide) (by decide)

/-- Membership in a JS-Set insertion. -/
theorem mem_addChanged (l : List (Nat × Nat)) (c cell : Nat × Nat) :
    cell ∈ addChanged l c ↔ cell ∈ l ∨ cell = c := by
  unfold addChanged
  by_cases h : c ∈ l
  · rw [if_pos h]
    constructor
    · exact Or.inl
    · rintro (hc | rfl)
      · exact hc
      · exact h
  · rw [if_neg h]
    simp

/-- Dirty-set membership for the inner (per-row) loop of resetAllBlocks. -/
theorem resetInner_mem (m : GameMap) (row : Nat) (l : List Nat) (cell : Nat × Nat) :
    ∀ acc : (Nat → Nat → Color) × List (Nat × Nat),
    (cell ∈ (l.foldl (fun (acc2 : (Nat → Nat → Color) × List (Nat × Nat)) col =>
      if blockExistsAt m row col then
        ((fun r c => if r = row ∧ c = col then Color.white else acc2.1 r c),
          addChanged acc2.2 (row, col))
      else acc2) acc).2 ↔
      cell ∈ acc.2 ∨ ∃ c ∈ l, cell = (row, c) ∧ blockExistsAt m row c = true) := by
  induction l with
  | nil => intro acc; simp
  | cons c0 t ih =>
    intro acc
    rw [List.foldl_cons]
    by_cases hex : blockExistsAt m row c0
    · rw [if_pos hex]
      rw [ih]
      simp only [mem_addChanged, List.mem_cons]
      constructor
      · rintro ((hc | rfl) | ⟨c, hcmem, rfl, hcex⟩)
        · exact Or.inl hc
        · exact Or.inr ⟨c0, Or.inl rfl, rfl, hex⟩
        · exact Or.inr ⟨c, Or.inr hcmem, rfl, hcex⟩
      · rintro (hc | ⟨c, (rfl | hcmem), rfl, hcex⟩)
        · exact Or.inl (Or.inl hc)
        · exact Or.inl (Or.inr rfl)
        · exact Or.inr ⟨c, hcmem, rfl, hcex⟩
    · rw [if_neg hex]
      rw [ih]
      simp only [List.mem_cons]
      constructor
      · rintro (hc | ⟨c, hcmem, rfl, hcex⟩)
        · exact Or.inl hc
        · exact Or.inr ⟨c, Or.inr hcmem, rfl, hcex⟩
      · rintro (hc | ⟨c, (rfl | hcmem), rfl, hcex⟩)
        · exact Or.inl hc
        · exact absurd hcex (by simpa using hex)
        · exact Or.inr ⟨c, hcmem, rfl, hcex⟩

/-- Dirty-set membership for the outer loop of resetAllBlocks. -/
theorem resetOuter_mem (m : GameMap) (l : List Nat) (cell : Nat × Nat) :
    ∀ acc : (Nat → Nat → Color) × List (Nat × Nat),
    (cell ∈ (l.foldl (fun (acc : (Nat → Nat → Color) × List (Nat × Nat)) row =>
      (List.range m.mapCols).foldl
        (fun (acc2 : (Nat → Nat → Color) × List (Nat × Nat)) col =>
          if blockExistsAt m row col then
            ((fun r c => if r = row ∧ c = col then Color.white else acc2.1 r c),
              addChanged acc2.2 (row, col))
          else acc2) acc) acc).2 ↔
      cell ∈ acc.2 ∨ ∃ r ∈ l, ∃ c ∈ List.range m.mapCols,
        cell = (r, c) ∧ blockExistsAt m r c = true) := by
  induction l with
  | nil => intro acc; simp
  | cons r0 t ih =>
    intro acc
    rw [List.foldl_cons, ih, resetInner_mem]
    simp only [List.mem_cons]
    constructor
    · rintro ((hc | ⟨c, hcmem, rfl, hcex⟩) | ⟨r, hrmem, c, hcmem, rfl, hcex⟩)
      · exact Or.inl hc
      · exact Or.inr ⟨r0, Or.inl rfl, c, hcmem, rfl, hcex⟩
      · exact Or.inr ⟨r, Or.inr hrmem, c, hcmem, rfl, hcex⟩
    · rintro (hc | ⟨r, (rfl | hrmem), c, hcmem, rfl, hcex⟩)
      · exact Or.inl (Or.inl hc)
      · exact Or.inl (Or.inr ⟨c, hcmem, rfl, hcex⟩)
      · exact Or.inr ⟨r, hrmem, c, hcmem, rfl, hcex⟩

/-- Dirty-set membership for resetAllBlocks: every existing in-range cell is
marked, nothing else is added. -/
theorem resetAllBlocks_mem (g : GameState) (cell : Nat × Nat) :
    cell ∈ (resetAllBlocks g).changedBlocks ↔
      cell ∈ g.changedBlocks ∨
        (cell.1 < g.map.mapRows ∧ cell.2 < g.map.mapCols ∧
          blockExistsAt g.map cell.1 cell.2 = true) := by
  show cell ∈ ((List.range g.map.mapRows).foldl _ (g.blockColors, g.changedBlocks)).2 ↔ _
  rw [resetOuter_mem]
  constructor
  · rintro (hc | ⟨r, hrmem, c, hcmem, rfl, hcex⟩)
    · exact Or.inl hc
    · exact Or.inr ⟨List.mem_range.mp hrmem, List.mem_range.mp hcmem, hcex⟩
  · rintro (hc | ⟨hr, hc2, hex⟩)
    · exact Or.inl hc
    · exact Or.inr ⟨cell.1, List.mem_range.mpr hr, cell.2, List.mem_range.mpr hc2, rfl, hex⟩

/-- The dirty-set effect of a single color-mutating operation: a cell joins the
dirty set exactly when the operation dirties it. -/
theorem mem_changed_applyPaintOp (g : GameState) (op : PaintOp) (cell : Nat × Nat) :
    cell ∈ (applyPaintOp g op).changedBlocks ↔
      cell ∈ g.changedBlocks ∨ opDirties g op cell := by
  cases op with
  | set row col color =>
    show cell ∈ (setBlockColor g.map g.blockColors g.changedBlocks row col color).2 ↔ _
    unfold setBlockColor opDirties
    by_cases h1 : row ≥ g.map.mapRows ∨ col ≥ g.map.mapCols
    · rw [if_pos h1]
      simp only []
      constructor
      · exact Or.inl
      · rintro (hc | ⟨rfl, hr, hc2, _⟩)
        · exact hc
        · rcases h1 with h1 | h1 <;> omega
    · rw [if_neg h1]
      push_neg at h1
      by_cases h2 : blockExistsAt g.map row col
      · rw [if_neg (by simp [h2])]
        by_cases h3 : g.blockColors row col ≠ color
        · rw [if_pos h3]
          simp only [mem_addChanged]
          constructor
          · rintro (hc | rfl)
            · exact Or.inl hc
            · exact Or.inr ⟨rfl, h1.1, h1.2, h2, Or.inl h3⟩
          · rintro (hc | ⟨rfl, _, _, _, _⟩)
            · exact Or.inl hc
            · exact Or.inr rfl
        · rw [if_neg h3]
          push_neg at h3
          by_cases h4 : isAtSpawnCell g.map row col
          · rw [if_pos h4]
            simp only [mem_addChanged]
            constructor
            · rintro (hc | rfl)
              · exact Or.inl hc
              · exact Or.inr ⟨rfl, h1.1, h1.2, h2, Or.inr h4⟩
            · rintro (hc | ⟨rfl, _, _, _, _⟩)
              · exact Or.inl hc
              · exact Or.inr rfl
          · rw [if_neg h4]
            constructor
            · exact Or.inl
            · rintro (hc | ⟨rfl, _, _, _, hor⟩)
              · exact hc
              · rcases hor with hor | hor
                · exact absurd h3 hor
                · exact absurd hor (by simpa using h4)
      · rw [if_pos (by simp [h2])]
        constructor
        · exact Or.inl
        · rintro (hc | ⟨rfl, _, _, hex, _⟩)
          · exact hc
          · exact absurd hex (by simpa using h2)
  | reset =>
    show cell ∈ (resetAllBlocks g).changedBlocks ↔ _
    rw [resetAllBlocks_mem]
    rfl

/-- The map data is untouched by color-mutating operations. -/
theorem applyPaintOps_map (g : GameState) (ops : List PaintOp) :
    (applyPaintOps g ops).map = g.map := by
  induction ops generalizing g with
  | nil => rfl
  | cons op rest ih =>
    show (applyPaintOps (applyPaintOp g op) rest).map = g.map
    rw [ih]
    cases op <;> rfl

/-- Dirty-set membership across an operation sequence: a cell is dirty afterwards
iff it was dirty before or some operation, executed in its intermediate state,
dirtied it. -/
theorem mem_changed_applyPaintOps (ops : List PaintOp) :
    ∀ (g : GameState) (cell : Nat × Nat),
    (cell ∈ (applyPaintOps g ops).changedBlocks ↔
      cell ∈ g.changedBlocks ∨ ∃ i, ∃ h : i < ops.length,
        opDirties (applyPaintOps g (ops.take i)) (ops.get ⟨i, h⟩) cell) := by
  induction ops with
  | nil =>
    intro g cell
    simp [applyPaintOps]
  | cons op rest ih =>
    intro g cell
    have hstep : applyPaintOps g (op :: rest) = applyPaintOps (applyPaintOp g op) rest := rfl
    rw [hstep, ih, mem_changed_applyPaintOp]
    constructor
    · rintro ((hc | hd) | ⟨i, hi, hdi⟩)
      · exact Or.inl hc
      · exact Or.inr ⟨0, Nat.succ_pos _, hd⟩
      · exact Or.inr ⟨i + 1, Nat.succ_lt_succ hi, hdi⟩
    · rintro (hc | ⟨i, hi, hdi⟩)
      · exact Or.inl (Or.inl hc)
      · cases i with
        | zero => exact Or.inl (Or.inr hdi)
        | succ j =>
          exact Or.inr ⟨j, Nat.lt_of_succ_lt_succ hi, hdi⟩

/-- Every cell the operations add to the dirty set is in range (operations only
dirty in-range cells). -/
theorem changed_inrange (ops : List PaintOp) (g : GameState) (cell : Nat × Nat)
    (hbase : ∀ c ∈ g.changedBlocks, c.1 < g.map.mapRows ∧ c.2 < g.map.mapCols)
    (hmem : cell ∈ (applyPaintOps g ops).changedBlocks) :
    cell.1 < g.map.mapRows ∧ cell.2 < g.map.mapCols := by
  rcases (mem_changed_applyPaintOps ops g cell).mp hmem with hc | ⟨i, hi, hdi⟩
  · exact hbase cell hc
  · cases hop : ops.get ⟨i, hi⟩ with
    | set row col color =>
      rw [hop] at hdi
      obtain ⟨rfl, hr, hc2, _⟩ := hdi
      rw [applyPaintOps_map] at hr hc2
      exact ⟨hr, hc2⟩
    | reset =>
      rw [hop] at hdi
      obtain ⟨hr, hc2, _⟩ := hdi
      rw [applyPaintOps_map] at hr hc2
      exact ⟨hr, hc2⟩

/-- Membership of the blockChanges fold of getSnapshot. -/
theorem mem_blockChangesFold (rows cols : Nat) (colors : Nat → Nat → Color)
    (l : List (Nat × Nat)) (ch : BlockChange) :
    ∀ acc : List BlockChange,
    (ch ∈ l.foldl (fun acc rc =>
      if rc.1 < rows ∧ rc.2 < cols then
        acc ++ [BlockChange.mk rc.1 rc.2 (colors rc.1 rc.2)]
      else acc) acc ↔
      ch ∈ acc ∨ ∃ rc ∈ l, (rc.1 < rows ∧ rc.2 < cols) ∧
        ch = BlockChange.mk rc.1 rc.2 (colors rc.1 rc.2)) := by
  induction l with
  | nil => intro acc; simp
  | cons rc0 t ih =>
    intro acc
    rw [List.foldl_cons]
    by_cases h0 : rc0.1 < rows ∧ rc0.2 < cols
    · rw [if_pos h0, ih]
      simp only [List.mem_append, List.mem_cons, List.not_mem_nil, or_false]
      constructor
      · rintro ((hc | rfl) | ⟨rc, hrcmem, hrc, rfl⟩)
        · exact Or.inl hc
        · exact Or.inr ⟨rc0, Or.inl rfl, h0, rfl⟩
        · exact Or.inr ⟨rc, Or.inr hrcmem, hrc, rfl⟩
      · rintro (hc | ⟨rc, (rfl | hrcmem), hrc, rfl⟩)
        · exact Or.inl (Or.inl hc)
        · exact Or.inl (Or.inr rfl)
        · exact Or.inr ⟨rc, hrcmem, hrc, rfl⟩
    · rw [if_neg h0, ih]
      simp only [List.mem_cons]
      constructor
      · rintro (hc | ⟨rc, hrcmem, hrc, rfl⟩)
        · exact Or.inl hc
        · exact Or.inr ⟨rc, Or.inr hrcmem, hrc, rfl⟩
      · rintro (hc | ⟨rc, (rfl | hrcmem), hrc, rfl⟩)
        · exact Or.inl hc
        · exact absurd hrc h0
        · exact Or.inr ⟨rc, hrcmem, hrc, rfl⟩

/-- The blockChanges delta of a snapshot mentions exactly the dirty cells, when
every dirty cell is in range. -/
theorem mem_snapshot_blockChanges (g : GameState) (t : ℚ) (row col : Nat)
    (hinr : ∀ c ∈ g.changedBlocks, c.1 < g.map.mapRows ∧ c.2 < g.map.mapCols) :
    (∃ ch ∈ (getSnapshot g t).1.blockChanges, ch.row = row ∧ ch.col = col) ↔
      (row, col) ∈ g.changedBlocks := by
  have hbc : (getSnapshot g t).1.blockChanges =
      g.changedBlocks.foldl (fun acc rc =>
        if rc.1 < g.map.mapRows ∧ rc.2 < g.map.mapCols then
          acc ++ [BlockChange.mk rc.1 rc.2 (g.blockColors rc.1 rc.2)]
        else acc) [] := rfl
  rw [hbc]
  constructor
  · rintro ⟨ch, hch, hrow, hcol⟩
    rcases (mem_blockChangesFold g.map.mapRows g.map.mapCols g.blockColors
        g.changedBlocks ch []).mp hch with h | ⟨rc, hrcmem, _, rfl⟩
    · simp at h
    · obtain ⟨rc1, rc2⟩ := rc
      simp only [] at hrow hcol
      rw [← hrow, ← hcol]
      exact hrcmem
  · intro hmem
    refine ⟨BlockChange.mk row col (g.blockColors row col), ?_, rfl, rfl⟩
    rw [mem_blockChangesFold]
    exact Or.inr ⟨(row, col), hmem, hinr _ hmem, rfl⟩

/-- C2 (amended): starting from a freshly emitted snapshot (empty dirty set), the
next snapshot's blockChanges contains a cell if and only if some color-mutating
operation since then dirtied it — where setBlockColor dirties its cell exactly
when the cell is in range, exists, and either actually changes color or is
at/beneath a spawn point, and resetAllBlocks dirties every existing in-range cell.
Immediately after getSnapshot returns, the dirty set is empty. -/
theorem c2_delta_compression (g : GameState) (ops : List PaintOp) (t : ℚ)
    (hclean : g.changedBlocks = []) :
    (∀ row col,
      ((∃ ch ∈ (getSnapshot (applyPaintOps g ops) t).1.blockChanges,
          ch.row = row ∧ ch.col = col) ↔
        ∃ i, ∃ h : i < ops.length,
          opDirties (applyPaintOps g (ops.take i)) (ops.get ⟨i, h⟩) (row, col))) ∧
    (getSnapshot (applyPaintOps g ops) t).2.changedBlocks = [] := by
  constructor
  · intro row col
    have hinr : ∀ c ∈ (applyPaintOps g ops).changedBlocks,
        c.1 < (applyPaintOps g ops).map.mapRows ∧ c.2 < (applyPaintOps g ops).map.mapCols := by
      intro c hc
      rw [applyPaintOps_map]
      exact changed_inrange ops g c (by rw [hclean]; simp) hc
    rw [mem_snapshot_blockChanges _ t row col hinr, mem_changed_applyPaintOps]
    rw [hclean]
    simp
  · rfl

/-- Witness for c2_delta_compression: one setBlockColor on a two-block map with a
spawn at (0,0); instantiated at the touched cell (1,0). -/
theorem c2_delta_compression_witness :
    ((∃ ch ∈ (getSnapshot (applyPaintOps
        (GameState.mk (GameMap.mk 43 63 20 20 0 0 20 20
            [Block.mk 0 0 0 100 20 20 0, Block.mk 1 0 0 120 20 20 0]
            [Spawn.mk 10 100 (some 0) (some 0)] [] [])
          [] [] [] [] [] (fun _ _ => Color.white) [] 0 0 (SpawnIndices.mk 0 0))
        [PaintOp.set 1 0 Color.red]) 0).1.blockChanges, ch.row = 1 ∧ ch.col = 0) ↔
      ∃ i, ∃ h : i < [PaintOp.set 1 0 Color.red].length,
        opDirties (applyPaintOps
          (GameState.mk (GameMap.mk 43 63 20 20 0 0 20 20
              [Block.mk 0 0 0 100 20 20 0, Block.mk 1 0 0 120 20 20 0]
              [Spawn.mk 10 100 (some 0) (some 0)] [] [])
            [] [] [] [] [] (fun _ _ => Color.white) [] 0 0 (SpawnIndices.mk 0 0))
          ([PaintOp.set 1 0 Color.red].take i))
          ([PaintOp.set 1 0 Color.red].get ⟨i, h⟩) (1, 0)) ∧
    (getSnapshot (applyPaintOps
        (GameState.mk (GameMap.mk 43 63 20 20 0 0 20 20
            [Block.mk 0 0 0 100 20 20 0, Block.mk 1 0 0 120 20 20 0]
            [Spawn.mk 10 100 (some 0) (some 0)] [] [])
          [] [] [] [] [] (fun _ _ => Color.white) [] 0 0 (SpawnIndices.mk 0 0))
        [PaintOp.set 1 0 Color.red]) 0).2.changedBlocks = [] := by
  have h := c2_delta_compression
    (GameState.mk (GameMap.mk 43 63 20 20 0 0 20 20
        [Block.mk 0 0 0 100 20 20 0, Block.mk 1 0 0 120 20 20 0]
        [Spawn.mk 10 100 (some 0) (some 0)] [] [])
      [] [] [] [] [] (fun _ _ => Color.white) [] 0 0 (SpawnIndices.mk 0 0))
    [PaintOp.set 1 0 Color.red] 0 rfl
  exact ⟨h.1 1 0, h.2⟩

/-- C2 (counterexample): with no operation between two emissions, a spawn-adjacent
cell is absent from blockChanges although the claim as stated requires it to be
present (the right-hand side of its iff holds via spawn adjacency while the cell
never became dirty). -/
theorem c2_counterexample :
    ¬ deltaMatchesClaim
      (GameState.mk (GameMap.mk 43 63 20 20 0 0 20 20
          [Block.mk 0 0 0 100 20 20 0]
          [Spawn.mk 10 100 (some 0) (some 0)] [] [])
        [] [] [] [] [] (fun _ _ => Color.white) [] 0 0 (SpawnIndices.mk 0 0))
      [] 0 := by
  intro h
  have h00 := (h 0 0).mpr (Or.inr (by decide))
  obtain ⟨ch, hch, _⟩ := h00
  have hempty : (getSnapshot (applyPaintOps
      (GameState.mk (GameMap.mk 43 63 20 20 0 0 20 20
          [Block.mk 0 0 0 100 20 20 0]
          [Spawn.mk 10 100 (some 0) (some 0)] [] [])
        [] [] [] [] [] (fun _ _ => Color.white) [] 0 0 (SpawnIndices.mk 0 0))
      []) 0).1.blockChanges = [] := rfl
  rw [hempty] at hch
  exact List.not_mem_nil ch hch

/-- Soundness of the getGroundY fold: a produced value comes from the accumulator
or a candidate block, and is a lower bound of both. -/
theorem groundFold_sound (m : GameMap) (x y : ℚ) (l : List Block) :
    ∀ (acc : Option ℚ) (g : ℚ),
    (l.foldl (fun acc b =>
      if groundCand m x y b then
        match acc with
        | none => some b.y
        | some g => if b.y < g then some b.y else some g
      else acc) acc) = some g →
    ((acc = some g ∨ ∃ b ∈ l, groundCand m x y b ∧ b.y = g) ∧
      (∀ b ∈ l, groundCand m x y b → g ≤ b.y) ∧
      (∀ a, acc = some a → g ≤ a)) := by
  induction l with
  | nil =>
    intro acc g h
    have hag : acc = some g := h
    refine ⟨Or.inl hag, by simp, ?_⟩
    intro a ha
    rw [hag] at ha
    exact le_of_eq (Option.some_injective ℚ ha)
  | cons b0 t ih =>
    intro acc g h
    rw [List.foldl_cons] at h
    by_cases hc : groundCand m x y b0
    · rw [if_pos hc] at h
      obtain ⟨hmem, hlb, hacc⟩ := ih _ g h
      have hstep : ∀ a, (match acc with
          | none => some b0.y
          | some g => if b0.y < g then some b0.y else some g) = some a →
          a ≤ b0.y ∧ (∀ a0, acc = some a0 → a ≤ a0) ∧
            (a = b0.y ∨ acc = some a) := by
        intro a ha
        cases acc with
        | none =>
          simp only [] at ha
          have hba : b0.y = a := Option.some_injective ℚ ha
          refine ⟨le_of_eq hba.symm, ?_, Or.inl hba.symm⟩
          intro a0 ha0
          simp at ha0
        | some g0 =>
          simp only [] at ha
          by_cases hlt : b0.y < g0
          · rw [if_pos hlt] at ha
            have : b0.y = a := Option.some_injective ℚ ha
            refine ⟨le_of_eq this.symm, ?_, Or.inl this.symm⟩
            intro a0 ha0
            have : g0 = a0 := Option.some_injective ℚ ha0
            rw [← this, ← ‹b0.y = a›]
            exact le_of_lt hlt
          · rw [if_neg hlt] at ha
            have he : g0 = a := Option.some_injective ℚ ha
            refine ⟨he ▸ le_of_not_lt hlt, ?_, Or.inr (he ▸ rfl)⟩
            intro a0 ha0
            have : g0 = a0 := Option.some_injective ℚ ha0
            rw [← this, ← he]
      refine ⟨?_, ?_, ?_⟩
      · rcases hmem with hmem | ⟨b, hbmem, hbc, hby⟩
        · obtain ⟨hle, hacc0, hor⟩ := hstep g hmem
          rcases hor with hor | hor
          · exact Or.inr ⟨b0, List.mem_cons_self b0 t, hc, hor.symm⟩
          · exact Or.inl hor
        · exact Or.inr ⟨b, List.mem_cons_of_mem b0 hbmem, hbc, hby⟩
      · intro b hb hbc2
        rcases List.mem_cons.mp hb with rfl | hb
        · rcases hmo : (match acc with
            | none => some b.y
            | some g => if b.y < g then some b.y else some g) with _ | a
          · cases acc with
            | none => simp at hmo
            | some g0 =>
              simp only [] at hmo
              by_cases hlt : b.y < g0
              · rw [if_pos hlt] at hmo; cases hmo
              · rw [if_neg hlt] at hmo; cases hmo
          · obtain ⟨ha1, _, _⟩ := hstep a hmo
            exact le_trans (hacc a hmo) ha1
        · exact hlb b hb hbc2
      · intro a ha
        rcases hmo : (match acc with
          | none => some b0.y
          | some g => if b0.y < g then some b0.y else some g) with _ | a1
        · cases acc with
          | none => simp at hmo
          | some g0 =>
            simp only [] at hmo
            by_cases hlt : b0.y < g0
            · rw [if_pos hlt] at hmo; cases hmo
            · rw [if_neg hlt] at hmo; cases hmo
        · obtain ⟨_, hacc1, _⟩ := hstep a1 hmo
          exact le_trans (hacc a1 hmo) (hacc1 a ha)
    · rw [if_neg hc] at h
      obtain ⟨hmem, hlb, hacc⟩ := ih _ g h
      refine ⟨?_, ?_, hacc⟩
      · rcases hmem with hmem | ⟨b, hbmem, hbc, hby⟩
        · exact Or.inl hmem
        · exact Or.inr ⟨b, List.mem_cons_of_mem b0 hbmem, hbc, hby⟩
      · intro b hb hbc2
        rcases List.mem_cons.mp hb with rfl | hb
        · exact absurd hbc2 hc
        · exact hlb b hb hbc2

/-- Completeness of the getGroundY fold: an attained lower bound of the candidates
and the accumulator is the result. -/
theorem groundFold_complete (m : GameMap) (x y : ℚ) (l : List Block) :
    ∀ (acc : Option ℚ) (g : ℚ),
    (acc = some g ∨ ∃ b ∈ l, groundCand m x y b ∧ b.y = g) →
    (∀ b ∈ l, groundCand m x y b → g ≤ b.y) →
    (∀ a, acc = some a → g ≤ a) →
    (l.foldl (fun acc b =>
      if groundCand m x y b then
        match acc with
        | none => some b.y
        | some g => if b.y < g then some b.y else some g
      else acc) acc) = some g := by
  induction l with
  | nil =>
    intro acc g hmem _ _
    rcases hmem with hmem | ⟨b, hb, _⟩
    · exact hmem
    · simp at hb
  | cons b0 t ih =>
    intro acc g hmem hlb hacc
    rw [List.foldl_cons]
    by_cases hc : groundCand m x y b0
    · rw [if_pos hc]
      have hgb0 : g ≤ b0.y := hlb b0 (List.mem_cons_self b0 t) hc
      apply ih
      · rcases hmem with hmem | ⟨b, hb, hbc, hby⟩
        · rw [hmem]
          simp only []
          rw [if_neg (not_lt.mpr hgb0)]
          exact Or.inl rfl
        · rcases List.mem_cons.mp hb with rfl | hb
          · cases hca : acc with
            | none => exact Or.inl (by simp only []; rw [hby])
            | some g0 =>
              have hg0 : g ≤ g0 := hacc g0 hca
              simp only []
              by_cases hlt : b.y < g0
              · rw [if_pos hlt]
                exact Or.inl (by rw [hby])
              · rw [if_neg hlt]
                have : g0 = g := le_antisymm (hby ▸ le_of_not_lt hlt) hg0
                exact Or.inl (by rw [this])
          · exact Or.inr ⟨b, hb, hbc, hby⟩
      · intro b hb hbc
        exact hlb b (List.mem_cons_of_mem b0 hb) hbc
      · intro a ha
        cases hca : acc with
        | none =>
          rw [hca] at ha
          simp only [] at ha
          exact (Option.some_injective ℚ ha) ▸ hgb0
        | some g0 =>
          rw [hca] at ha
          simp only [] at ha
          by_cases hlt : b0.y < g0
          · rw [if_pos hlt] at ha
            exact (Option.some_injective ℚ ha) ▸ hgb0
          · rw [if_neg hlt] at ha
            exact (Option.some_injective ℚ ha) ▸ hacc g0 hca
    · rw [if_neg hc]
      apply ih
      · rcases hmem with hmem | ⟨b, hb, hbc, hby⟩
        · exact Or.inl hmem
        · rcases List.mem_cons.mp hb with rfl | hb
          · exact absurd hbc hc
          · exact Or.inr ⟨b, hb, hbc, hby⟩
      · intro b hb hbc
        exact hlb b (List.mem_cons_of_mem b0 hb) hbc
      · exact hacc

/-- If the character rests exactly on its ground, the ground query returns the
same ground after a small downward displacement (at most 3 pixels). -/
theorem getGroundY_shift (m : GameMap) (x y δ : ℚ) (hδ1 : 0 ≤ δ) (hδ2 : δ ≤ 3)
    (hg : getGroundY m x y = some y) :
    getGroundY m x (y + δ) = some y := by
  obtain ⟨hmem, hlb, _⟩ := groundFold_sound m x y m.blocks none y hg
  rcases hmem with hmem | ⟨b0, hb0mem, hb0c, hb0y⟩
  · simp at hmem
  · have hlb2 : ∀ b ∈ m.blocks, groundCand m x (y + δ) b → y ≤ b.y := by
      intro b hb hbc
      by_contra hlt
      push_neg at hlt
      obtain ⟨hh1, hh2, hh3, hh4⟩ := hbc
      exact absurd (hlb b hb ⟨hh1, hh2, by linarith, by linarith⟩) (not_le.mpr hlt)
    apply groundFold_complete
    · obtain ⟨hh1, hh2, hh3, hh4⟩ := hb0c
      refine Or.inr ⟨b0, hb0mem, ⟨hh1, hh2, ?_, ?_⟩, hb0y⟩
      · rw [hb0y]; linarith
      · rw [hb0y]; linarith
    · exact hlb2
    · intro a ha
      simp at ha

/-- The safety check never moves a player resting exactly on ground vertically,
and never consumes a spawn index there. -/
theorem stepSafety_resting (m : GameMap) (si : SpawnIndices) (p : Player) (q : Player)
    (hqx : q.x = p.x) (hqy : q.y = p.y)
    (hground : getGroundY m p.x p.y = some p.y) :
    (stepSafety m si q).1.y = p.y ∧ (stepSafety m si q).2 = si := by
  unfold stepSafety
  by_cases hb : checkJumpPadCollision m q.x q.y
  · rw [if_pos hb]
    exact ⟨hqy, rfl⟩
  · rw [if_neg hb]
    by_cases hcol : (checkCollision m q.x q.y 0 none).collided
    · rw [if_pos hcol, hqx, hqy, hground]
      exact ⟨rfl, rfl⟩
    · rw [if_neg hcol]
      exact ⟨hqy, rfl⟩

/-- The fall-below-map check is a no-op for a player at or above the bottom edge. -/
theorem stepFall_above (m : GameMap) (si : SpawnIndices) (q : Player)
    (h : q.y ≤ GAME_HEIGHT) : stepFall m si q = (q, si) := by
  unfold stepFall
  rw [if_neg (not_lt.mpr h)]

/-- C5 core: a player resting exactly on regular ground with zero velocity and no
keys held ends the per-player block at the same y (the gravity sub-step moves y
down by 25/60 px but the final ground check snaps it back), without consuming a
spawn index. -/
theorem stepPlayer_resting (m : GameMap) (si : SpawnIndices) (p : Player) (inp : InputState)
    (ha : inp.a = false) (hd : inp.d = false) (hw : inp.w = false)
    (hground : getGroundY m p.x p.y = some p.y)
    (hpad : getJumpPadAt m p.x p.y = none)
    (hv : p.velocityY = 0) (hbelow : p.y ≤ GAME_HEIGHT) :
    ((stepPlayer m si p (some inp) fixedTimestep).1).y = p.y ∧
    (stepPlayer m si p (some inp) fixedTimestep).2.2 = si := by
  have h1 : step1Ground m p =
      Player.mk p.playerId p.team p.x p.y 0 p.hasBomb true 0 p.wasInJumpPad := by
    have hcnd : |p.y - p.y| < 2 ∧ |p.velocityY| < 36 :=
      ⟨by rw [sub_self, abs_zero]; norm_num, by rw [hv, abs_zero]; norm_num⟩
    unfold step1Ground
    rw [hground]
    dsimp only
    rw [if_pos hcnd]
  have h2 : applyMovement m
      (Player.mk p.playerId p.team p.x p.y 0 p.hasBomb true 0 p.wasInJumpPad) inp
      fixedTimestep =
      Player.mk p.playerId p.team p.x p.y 0 p.hasBomb true 0 p.wasInJumpPad := by
    unfold applyMovement
    rw [ha, hd]
    simp
  have h3 : (processJumpInput m
      (Player.mk p.playerId p.team p.x p.y 0 p.hasBomb true 0 p.wasInJumpPad) inp).1 =
      Player.mk p.playerId p.team p.x p.y 0 p.hasBomb true 0 p.wasInJumpPad := by
    unfold processJumpInput
    rw [hw]
    simp
  have h4 : step3Gravity
      (Player.mk p.playerId p.team p.x p.y 0 p.hasBomb true 0 p.wasInJumpPad)
      fixedTimestep =
      Player.mk p.playerId p.team p.x p.y 25 p.hasBomb true 0 p.wasInJumpPad := by
    unfold step3Gravity
    dsimp only
    rw [if_neg (by norm_num [GRAVITY, MAX_FALL_SPEED, fixedTimestep])]
    simp only [Player.mk.injEq]
    norm_num [GRAVITY, fixedTimestep]
  have hshift : getGroundY m p.x (p.y + 25 * fixedTimestep) = some p.y :=
    getGroundY_shift m p.x p.y (25 * fixedTimestep)
      (by norm_num [fixedTimestep]) (by norm_num [fixedTimestep]) hground
  have h5 : step6Final m (step4Vertical m
      (Player.mk p.playerId p.team p.x p.y 25 p.hasBomb true 0 p.wasInJumpPad)
      fixedTimestep) =
      Player.mk p.playerId p.team p.x p.y 0 p.hasBomb true 0 p.wasInJumpPad := by
    have hge : p.y + 25 * fixedTimestep ≥ p.y := by
      rw [ge_iff_le]
      exact le_add_of_nonneg_right (by norm_num [fixedTimestep])
    have h4v : step4Vertical m
        (Player.mk p.playerId p.team p.x p.y 25 p.hasBomb true 0 p.wasInJumpPad)
        fixedTimestep =
        (if (checkCollision m p.x (p.y + 25 * fixedTimestep) 25 (some p.y)).collided then
          Player.mk p.playerId p.team p.x p.y 0 p.hasBomb true 0 p.wasInJumpPad
        else
          Player.mk p.playerId p.team p.x (p.y + 25 * fixedTimestep) 25 p.hasBomb false 0
            p.wasInJumpPad) := by
      unfold step4Vertical
      dsimp only
      rw [if_pos (show (25 : ℚ) > 0 by norm_num)]
      rw [hground]
      dsimp only
      rw [if_pos hge, hpad]
    rw [h4v]
    by_cases hcol : (checkCollision m p.x (p.y + 25 * fixedTimestep) 25 (some p.y)).collided
    · rw [if_pos hcol]
      have hcnd : |p.y - p.y| < 3 ∧ |(0 : ℚ)| < 36 :=
        ⟨by rw [sub_self, abs_zero]; norm_num, by rw [abs_zero]; norm_num⟩
      unfold step6Final
      dsimp only
      rw [if_neg (fun h => absurd h.1 (by norm_num)), hground]
      dsimp only
      rw [if_pos hcnd, hpad]
    · rw [if_neg hcol]
      have hcnd : |p.y + 25 * fixedTimestep - p.y| < 3 ∧ |(25 : ℚ)| < 36 := by
        constructor
        · rw [show p.y + 25 * fixedTimestep - p.y = 25 * fixedTimestep from by ring,
            show (25 : ℚ) * fixedTimestep = 5/12 from by norm_num [fixedTimestep],
            abs_of_nonneg (by norm_num : (0 : ℚ) ≤ 5/12)]
          norm_num
        · rw [abs_of_nonneg (by norm_num : (0 : ℚ) ≤ 25)]
          norm_num
      unfold step6Final
      dsimp only
      rw [if_neg (fun h => absurd h.1 (by norm_num)), hshift]
      dsimp only
      rw [if_pos hcnd, hpad]
  unfold stepPlayer
  dsimp only
  rw [h1, h2, h3, h4, h5]
  obtain ⟨hsy, hssi⟩ := stepSafety_resting m si p
    (stepPadFlag m (Player.mk p.playerId p.team p.x p.y 0 p.hasBomb true 0 p.wasInJumpPad))
    rfl rfl hground
  rw [hssi]
  have hfall := stepFall_above m si
    (stepBoundary m (stepSafety m si (stepPadFlag m
      (Player.mk p.playerId p.team p.x p.y 0 p.hasBomb true 0 p.wasInJumpPad))).1)
    (by
      show (stepSafety m si (stepPadFlag m
        (Player.mk p.playerId p.team p.x p.y 0 p.hasBomb true 0 p.wasInJumpPad))).1.y ≤
        GAME_HEIGHT
      rw [hsy]
      exact hbelow)
  rw [hfall]
  exact ⟨hsy, rfl⟩

/-- Collecting a bomb can only toggle hasBomb on a lone player, never move them. -/
theorem bombCollect_single (m : GameMap) (b : Bomb) (q : Player) :
    ∃ q', (bombCollectStep m b [q]).2 = [q'] ∧ q'.y = q.y := by
  unfold bombCollectStep
  rw [List.foldl_cons, List.foldl_nil]
  by_cases h : (!q.hasBomb && checkBombCollision m q b)
  · rw [if_pos h]
    exact ⟨_, rfl, rfl⟩
  · rw [if_neg h]
    exact ⟨_, rfl, rfl⟩

/-- The pickup-bomb phase of updateGame never moves a lone player vertically. -/
theorem bombsFold_y (m : GameMap) (dt : ℚ) (bombs : List Bomb) :
    ∀ (bs0 : List Bomb) (q : Player),
    ∃ q', (bombs.foldl (fun (acc : List Bomb × List Player) bomb =>
      let bomb := bombRespawnStep bomb dt
      if !bomb.collected then
        let r := bombCollectStep m bomb acc.2
        (acc.1 ++ [r.1], r.2)
      else (acc.1 ++ [bomb], acc.2)) (bs0, [q])).2 = [q'] ∧ q'.y = q.y := by
  induction bombs with
  | nil => exact fun bs0 q => ⟨q, rfl, rfl⟩
  | cons bomb rest ih =>
    intro bs0 q
    rw [List.foldl_cons]
    dsimp only
    by_cases h : (bombRespawnStep bomb dt).collected
    · rw [if_neg (by simp [h])]
      exact ih _ q
    · rw [if_pos (by simp [h])]
      obtain ⟨q1, hq1, hq1y⟩ := bombCollect_single m (bombRespawnStep bomb dt) q
      rw [hq1]
      obtain ⟨q', hq', hq'y⟩ := ih (bs0 ++ [(bombCollectStep m (bombRespawnStep bomb dt) [q]).1]) q1
      exact ⟨q', hq', hq'y.trans hq1y⟩

/-- C5: a player resting exactly on ground over a regular (non-jump-pad) block,
with zero vertical velocity and no keys held, has the same y coordinate after one
full per-tick update: the gravity sub-step moves y down by 25/60 px but the final
ground check snaps it back to the same ground Y. -/
theorem c5_ground_snap_idempotent (g : GameState) (p : Player) (inp : InputState)
    (hplayers : g.players = [p])
    (hinp : assocGet g.inputs p.playerId = some inp)
    (ha : inp.a = false) (hd : inp.d = false) (hw : inp.w = false)
    (hground : getGroundY g.map p.x p.y = some p.y)
    (hpad : getJumpPadAt g.map p.x p.y = none)
    (hv : p.velocityY = 0) (hbelow : p.y ≤ GAME_HEIGHT) :
    ∃ p', (updateGame g fixedTimestep).players = [p'] ∧ p'.y = p.y := by
  have hdt : min fixedTimestep (1/30 : ℚ) = fixedTimestep := by norm_num [fixedTimestep]
  obtain ⟨hy, hsi⟩ := stepPlayer_resting g.map g.spawnIndices p inp ha hd hw hground hpad hv hbelow
  unfold updateGame
  dsimp only
  rw [hdt, hplayers]
  rw [List.foldl_cons, List.foldl_nil]
  dsimp only
  rw [hinp]
  simp only [List.nil_append]
  obtain ⟨q', hq', hq'y⟩ := bombsFold_y g.map fixedTimestep g.bombs []
    ((stepPlayer g.map g.spawnIndices p (some inp) fixedTimestep).1)
  exact ⟨q', hq', hq'y.trans hy⟩

/-- Witness for c5_ground_snap_idempotent: a single player resting on a regular
block whose top is at y = 100. -/
theorem c5_ground_snap_idempotent_witness :
    ∃ p', (updateGame
        (GameState.mk (GameMap.mk 43 63 20 20 0 0 20 20 [Block.mk 1 0 0 100 20 20 0] [] [] [])
          [Player.mk "p1" Color.red 10 100 0 false true 0 false]
          [("p1", defaultInputState)] [] [] []
          (fun _ _ => Color.white) [] 0 0 (SpawnIndices.mk 0 0))
        fixedTimestep).players = [p'] ∧
      p'.y = (Player.mk "p1" Color.red 10 100 0 false true 0 false).y :=
  c5_ground_snap_idempotent
    (GameState.mk (GameMap.mk 43 63 20 20 0 0 20 20 [Block.mk 1 0 0 100 20 20 0] [] [] [])
      [Player.mk "p1" Color.red 10 100 0 false true 0 false]
      [("p1", defaultInputState)] [] [] []
      (fun _ _ => Color.white) [] 0 0 (SpawnIndices.mk 0 0))
    (Player.mk "p1" Color.red 10 100 0 false true 0 false)
    defaultInputState
    rfl rfl rfl rfl rfl
    (by simp [getGroundY, groundCand, effWidth, JUMP_PAD_INDEX]; norm_num)
    rfl rfl (by norm_num [GAME_HEIGHT])
